import Mathlib

/-!
Verification of the spline control-point solver (`src/splinechart/qsplineseries.cpp`)
and the vertical axis layout routine (`src/axis/verticalaxis.cpp`) of the qtcharts
repository, over a shallow embedding in Lean.   `qreal` values are modelled as
exact rationals; Qt container operations (`QVector::resize`, indexed writes) are
modelled by the corresponding total list operations.
-/

set_option maxHeartbeats 1600000

namespace QtCharts

/-- A data point / control point: the pair of `x()` and `y()` coordinates of a `QPointF`. -/
abbrev Pt := ℚ × ℚ

/-! ## QSplineSeriesPrivate (qsplineseries.cpp)

`calculateControlPoints` builds, per axis, a right-hand-side vector `vector` of
length `n = points.count() - 1`:
  `vector[0]   = c0 + 2*c1`
  `vector[i]   = 4*ci + 2*c(i+1)`   for `1 <= i <= n-2`
  `vector[n-1] = (8*c(n-1) + cn) / 2`
(the `n-1` write happens last, hence the first `if` below). -/
def splineVector (coords : List ℚ) : List ℚ :=
  let n := coords.length - 1
  (List.range n).map (fun i =>
    if i = n - 1 then (8 * coords.getD (n - 1) 0 + coords.getD n 0) / 2
    else if i = 0 then coords.getD 0 0 + 2 * coords.getD 1 0
    else 4 * coords.getD i 0 + 2 * coords.getD (i + 1) 0)

/-- The forward-elimination loop of `QSplineSeriesPrivate::firstControlPoints`,
after the loop body ran for `i = 1, ..., k`.  The state is
`(result, temp, b)`; initially `result[0] = vector[0] / 2.0`, `temp[0] = 0`,
`b = 2.0`.  The body stores the reciprocal `temp[i] = 1 / b`, updates the pivot
`b = (i < count-1 ? 4.0 : 3.5) - temp[i]` and eliminates
`result[i] = (vector[i] - result[i-1]) / b`. -/
def fcpForward (vector : List ℚ) (k : ℕ) : List ℚ × List ℚ × ℚ :=
  let count := vector.length
  (List.range' 1 k).foldl
    (fun st i =>
      let temp := st.2.1.set i (1 / st.2.2)
      let b := (if i < count - 1 then (4 : ℚ) else 3.5) - temp.getD i 0
      let result := st.1.set i ((vector.getD i 0 - st.1.getD (i - 1) 0) / b)
      (result, temp, b))
    ((List.replicate count 0).set 0 (vector.getD 0 0 / 2),
     (List.replicate count 0).set 0 0, 2)

/-- The back-substitution loop of `firstControlPoints`, run for `i = 1, ..., k`:
`result[count-i-1] -= temp[count-i] * result[count-i]`. -/
def fcpBackward (count : ℕ) (temp : List ℚ) (result : List ℚ) (k : ℕ) : List ℚ :=
  (List.range' 1 k).foldl
    (fun result i =>
      result.set (count - i - 1)
        (result.getD (count - i - 1) 0 - temp.getD (count - i) 0 * result.getD (count - i) 0))
    result

/-- `QSplineSeriesPrivate::firstControlPoints`: Thomas forward elimination
followed by back substitution; both loops run for `i = 1, ..., count-1`. -/
def firstControlPoints (vector : List ℚ) : List ℚ :=
  let count := vector.length
  fcpBackward count (fcpForward vector (count - 1)).2.1 (fcpForward vector (count - 1)).1
    (count - 1)

/-- The pivot sequence of the forward elimination: the value of `b` after the
loop body ran for `i = 1, ..., k` (and the initial `b = 2.0` for `k = 0`). -/
def piv (vector : List ℚ) : ℕ → ℚ
  | 0 => 2
  | i + 1 => (if i + 1 < vector.length - 1 then (4 : ℚ) else 3.5) - 1 / piv vector i

/-- The value stored in `result[i]` by the forward elimination. -/
def yval (vector : List ℚ) : ℕ → ℚ
  | 0 => vector.getD 0 0 / 2
  | i + 1 => (vector.getD (i + 1) 0 - yval vector i) / piv vector (i + 1)

/-- The value stored in `result[j]` after back substitution. -/
def xval (vector : List ℚ) (j : ℕ) : ℚ :=
  if j + 1 < vector.length then yval vector j - 1 / piv vector j * xval vector (j + 1)
  else yval vector j
termination_by vector.length - j
decreasing_by omega

/-- The per-axis first control points of `calculateControlPoints`: the RHS
vector fed through `firstControlPoints`.  `ctrlX` is `xControl`. -/
def ctrlX (points : List Pt) : List ℚ := firstControlPoints (splineVector (points.map Prod.fst))

/-- The per-axis first control points for the y axis (`yControl`). -/
def ctrlY (points : List Pt) : List ℚ := firstControlPoints (splineVector (points.map Prod.snd))

/-- One iteration of the write-out loop of `calculateControlPoints`
(`for (i = 0, j = 0; i < n; ++i, ++j)`): writes `m_controlPoints[j]` from
`xControl[i]`/`yControl[i]`, increments `j`, then writes the second control
point of segment `i`. -/
def ccpStep (points : List Pt) (n : ℕ) (xc yc : List ℚ) (st : List Pt × ℕ) (i : ℕ) :
    List Pt × ℕ :=
  let buf := st.1.set st.2 (xc.getD i 0, yc.getD i 0)
  let j := st.2 + 1
  let buf :=
    if i < n - 1 then
      buf.set j (2 * (points.getD (i + 1) (0, 0)).1 - xc.getD (i + 1) 0,
                 2 * (points.getD (i + 1) (0, 0)).2 - yc.getD (i + 1) 0)
    else
      buf.set j (((points.getD n (0, 0)).1 + xc.getD (n - 1) 0) / 2,
                 ((points.getD n (0, 0)).2 + yc.getD (n - 1) 0) / 2)
  (buf, j + 1)

/-- The value the write-out loop leaves in `m_controlPoints[m]`: even slots
hold the first control point `(xControl[m/2], yControl[m/2])` of segment
`m/2`, odd slots the second control point of segment `m/2`. -/
def cpPairVal (points : List Pt) (n : ℕ) (xc yc : List ℚ) (m : ℕ) : Pt :=
  if m % 2 = 0 then (xc.getD (m / 2) 0, yc.getD (m / 2) 0)
  else if m / 2 < n - 1 then
    (2 * (points.getD (m / 2 + 1) (0, 0)).1 - xc.getD (m / 2 + 1) 0,
     2 * (points.getD (m / 2 + 1) (0, 0)).2 - yc.getD (m / 2 + 1) 0)
  else
    (((points.getD n (0, 0)).1 + xc.getD (n - 1) 0) / 2,
     ((points.getD n (0, 0)).2 + yc.getD (n - 1) 0) / 2)

/-- `QSplineSeriesPrivate::calculateControlPoints`, acting on the member buffer
`m_controlPoints` (passed in as `buf`).  For `n == 1` the closed form is used;
otherwise the two tridiagonal solves and the write-out loop run. -/
def calculateControlPoints (points : List Pt) (buf : List Pt) : List Pt :=
  let n := points.length - 1
  if n = 1 then
    let cp0 : Pt := ((2 * (points.getD 0 (0, 0)).1 + (points.getD 1 (0, 0)).1) / 3,
                     (2 * (points.getD 0 (0, 0)).2 + (points.getD 1 (0, 0)).2) / 3)
    let buf := buf.set 0 cp0
    buf.set 1 (2 * cp0.1 - (points.getD 0 (0, 0)).1, 2 * cp0.2 - (points.getD 0 (0, 0)).2)
  else
    ((List.range n).foldl (ccpStep points n (ctrlX points) (ctrlY points)) (buf, 0)).1

/-- `QVector<QPointF>::resize`: keeps the existing prefix, pads with
default-constructed `QPointF()` (the origin). -/
def resizeBuf (l : List Pt) (m : ℕ) : List Pt :=
  l.take m ++ List.replicate (m - l.length) ((0, 0) : Pt)

/-- `QSplineSeriesPrivate::updateControlPoints`: if the series has more than one
point, resize `m_controlPoints` to `2 * count - 2` and recompute; otherwise do
nothing. -/
def updateControlPoints (points : List Pt) (buf : List Pt) : List Pt :=
  if 1 < points.length then
    calculateControlPoints points (resizeBuf buf (2 * points.length - 2))
  else buf

/-- The point mutation signals connected in the `QSplineSeries` constructor:
`pointAdded`, `pointRemoved`, `pointReplaced`, `pointsReplaced`. -/
inductive MutationEvent
  | added
  | removed
  | replaced
  | allReplaced
deriving DecidableEq

/-- Every one of the four mutation signals is connected to the same slot
`updateControlPoints()` (qsplineseries.cpp, constructor). -/
def onMutation (_e : MutationEvent) (points : List Pt) (buf : List Pt) : List Pt :=
  updateControlPoints points buf

/-! ## VerticalAxis (verticalaxis.cpp)

The scene-graph render items mutated by `VerticalAxis::updateGeometry` are
modelled as plain records; the text services (`ChartPresenter::truncatedText`,
`ChartPresenter::textBoundingRect`, `QGraphicsTextItem::boundingRect`) are
external collaborators and enter as an abstract environment. -/

/-- A `QRectF` (origin plus size). -/
structure Rect where
  x : ℚ
  y : ℚ
  w : ℚ
  h : ℚ
deriving DecidableEq, Inhabited

namespace Rect

def left (r : Rect) : ℚ := r.x

def right (r : Rect) : ℚ := r.x + r.w

def top (r : Rect) : ℚ := r.y

def bottom (r : Rect) : ℚ := r.y + r.h

def centerX (r : Rect) : ℚ := r.x + r.w / 2

def centerY (r : Rect) : ℚ := r.y + r.h / 2

end Rect

/-- A `QGraphicsLineItem`: its line endpoints and visibility. -/
structure LineItem where
  x1 : ℚ
  y1 : ℚ
  x2 : ℚ
  y2 : ℚ
  visible : Bool
deriving DecidableEq, Inhabited

/-- A `QGraphicsTextItem`: html content, position, transform origin point,
rotation and visibility. -/
structure TextItem where
  html : String
  posX : ℚ
  posY : ℚ
  originX : ℚ
  originY : ℚ
  rotation : ℚ
  visible : Bool
deriving DecidableEq, Inhabited

/-- A `QGraphicsRectItem`: its rectangle and visibility. -/
structure RectItem where
  rect : Rect
  visible : Bool
deriving DecidableEq, Inhabited

/-- The pooled render items `updateGeometry` mutates: `gridItems()`,
`labelItems()`, `shadeItems()`, `arrowItems()` and `titleItem()`. -/
structure AxisState where
  gridItems : List LineItem
  labelItems : List TextItem
  shadeItems : List RectItem
  arrowItems : List LineItem
  titleItem : TextItem
deriving DecidableEq, Inhabited

/-- `axis()->alignment()`: a `VerticalAxis` is aligned `Qt::AlignLeft` or
`Qt::AlignRight`. -/
inductive AxisAlignment
  | left
  | right
deriving DecidableEq, Inhabited

/-- The inputs `updateGeometry` reads: the tick pixel layout, the label
strings, the axis and grid rectangles, alignment, interval-axis flag, the
paddings, the title text, the label rotation angle and the two fonts (fonts
are opaque tags passed to the text services). -/
structure AxisConfig where
  layout : List ℚ
  labelList : List String
  axisRect : Rect
  gridRect : Rect
  alignment : AxisAlignment
  intervalAxis : Bool
  labelPadding : ℚ
  titlePadding : ℚ
  titleText : String
  labelsAngle : ℚ
  labelsFont : ℕ
  titleFont : ℕ

/-- The external text services: `truncatedText font angle width height text`
returns the rendered (possibly truncated) html and the bounding rectangle out
parameter; `textBoundingRect font text` is `ChartPresenter::textBoundingRect`;
`itemRect html` is `QGraphicsTextItem::boundingRect()` after `setHtml(html)`. -/
structure TextServices where
  truncatedText : ℕ → ℚ → ℚ → ℚ → String → String × Rect
  textBoundingRect : ℕ → String → Rect
  itemRect : String → Rect

/-- The label string of tick `i` (`labelList.at(i)`). -/
def labelText (cfg : AxisConfig) (i : ℕ) : String := cfg.labelList.getD i ""

/-- Label text wrapping (source lines 106-116): an empty label is rendered as
is with a default-constructed bounding rectangle; otherwise the truncation
service is called with the available width and
`axisRect.height() / layout.count() - 2 * labelPadding`. -/
def labelTruncRes (cfg : AxisConfig) (env : TextServices) (avail : ℚ) (i : ℕ) :
    String × Rect :=
  let text := labelText cfg i
  if text = "" then (text, ⟨0, 0, 0, 0⟩)
  else
    env.truncatedText cfg.labelsFont cfg.labelsAngle avail
      (cfg.axisRect.h / (cfg.layout.length : ℚ) - 2 * cfg.labelPadding) text

/-- The `boundingRect` out parameter of the label truncation call. -/
def labelBRect (cfg : AxisConfig) (env : TextServices) (avail : ℚ) (i : ℕ) : Rect :=
  (labelTruncRes cfg env avail i).2

/-- `labelItem->boundingRect()` after `setHtml` (the `rect` local). -/
def labelIRect (cfg : AxisConfig) (env : TextServices) (avail : ℚ) (i : ℕ) : Rect :=
  env.itemRect (labelTruncRes cfg env avail i).1

/-- The state of label item `i` after the body of the per-tick loop ran with
running threshold `height` (source lines 105-160): truncation, transform
origin, position by alignment, the interval-axis midpoint adjustment with its
`forceHide` flag, and the overlap/out-of-range visibility decision. -/
def labelItemSpec (cfg : AxisConfig) (env : TextServices) (avail : ℚ) (height : ℚ)
    (i : ℕ) (old : TextItem) : TextItem :=
  let text := (labelTruncRes cfg env avail i).1
  let boundingRect := labelBRect cfg env avail i
  let rect := labelIRect cfg env avail i
  let centerX := rect.centerX
  let centerY := rect.centerY
  let widthDiff := rect.w - boundingRect.w
  let heightDiff := rect.h - boundingRect.h
  let posX :=
    match cfg.alignment with
    | .left => cfg.axisRect.right - rect.w + widthDiff / 2 - cfg.labelPadding
    | .right => cfg.axisRect.left + cfg.labelPadding - widthDiff / 2
  let posY := cfg.layout.getD i 0 - centerY
  let lowerBound := min (cfg.layout.getD i 0) cfg.gridRect.bottom
  let upperBound := max (cfg.layout.getD (i + 1) 0) cfg.gridRect.top
  let delta := lowerBound - upperBound
  let hideInner : Bool :=
    decide (delta < boundingRect.h) &&
      (decide (lowerBound = cfg.gridRect.bottom) || decide (upperBound = cfg.gridRect.top)) &&
      !cfg.intervalAxis
  let inBetween : Bool := cfg.intervalAxis && decide (i + 1 ≠ cfg.layout.length)
  let forceHide : Bool := inBetween && hideInner
  let posY := if inBetween && !hideInner then lowerBound - delta / 2 - centerY else posY
  let hide : Bool :=
    (decide (posY + boundingRect.h > height) || forceHide ||
        decide (posY + heightDiff / 2 - 1 > cfg.axisRect.bottom) ||
        decide (posY + heightDiff / 2 < cfg.axisRect.top - 1)) &&
      !cfg.intervalAxis
  { html := text, posX := posX, posY := posY, originX := centerX, originY := centerY,
    rotation := old.rotation, visible := !hide }

/-- Grid line `i` (source lines 102-103 and the visibility clamp,
lines 174-183). -/
def gridItemSpec (cfg : AxisConfig) (i : ℕ) : LineItem :=
  let y := cfg.layout.getD i 0
  { x1 := cfg.gridRect.left, y1 := y, x2 := cfg.gridRect.right, y2 := y,
    visible := !(decide (y < cfg.gridRect.top) || decide (y > cfg.gridRect.bottom)) }

/-- Tick mark `i` (`arrow.at(i + 1)`; source lines 126-132 and the visibility
clamp, lines 174-183). -/
def tickItemSpec (cfg : AxisConfig) (i : ℕ) : LineItem :=
  let y := cfg.layout.getD i 0
  let vis := !(decide (y < cfg.gridRect.top) || decide (y > cfg.gridRect.bottom))
  match cfg.alignment with
  | .left =>
    { x1 := cfg.axisRect.right - cfg.labelPadding, y1 := y, x2 := cfg.axisRect.right, y2 := y,
      visible := vis }
  | .right =>
    { x1 := cfg.axisRect.left, y1 := y, x2 := cfg.axisRect.left + cfg.labelPadding, y2 := y,
      visible := vis }

/-- Shade band written at loop index `i` (source lines 162-172): the rectangle
spans the grid width between the previous and current tick, each clamped to
the grid; it is hidden iff its height is non-positive. -/
def shadeItemSpec (cfg : AxisConfig) (i : ℕ) : RectItem :=
  let lowerBound := min (cfg.layout.getD (i - 1) 0) cfg.gridRect.bottom
  let upperBound := max (cfg.layout.getD i 0) cfg.gridRect.top
  let r : Rect := ⟨cfg.gridRect.left, upperBound, cfg.gridRect.w, lowerBound - upperBound⟩
  { rect := r, visible := decide (0 < r.h) }

/-- The axis arrow (`arrow.at(0)`; source lines 62-68): a vertical line at the
grid-side edge of the axis rectangle.  `setLine` leaves visibility alone. -/
def arrowItemSpec (cfg : AxisConfig) (old : LineItem) : LineItem :=
  match cfg.alignment with
  | .left =>
    { x1 := cfg.axisRect.right, y1 := cfg.gridRect.top, x2 := cfg.axisRect.right,
      y2 := cfg.gridRect.bottom, visible := old.visible }
  | .right =>
    { x1 := cfg.axisRect.left, y1 := cfg.gridRect.top, x2 := cfg.axisRect.left,
      y2 := cfg.gridRect.bottom, visible := old.visible }

/-- `availableSpace` before the title branch: `axisRect.width() - labelPadding()`. -/
def availSpace0 (cfg : AxisConfig) : ℚ := cfg.axisRect.w - cfg.labelPadding

/-- The html the title item is set to (source lines 76-80): the title text
truncated for a 90-degree rotation into
`availableSpace - minimumLabelWidth` by `gridRect.height()`. -/
def titleHtml (cfg : AxisConfig) (env : TextServices) : String :=
  (env.truncatedText cfg.titleFont 90
      (availSpace0 cfg - cfg.titlePadding * 2 - (env.textBoundingRect cfg.labelsFont "...").w)
      cfg.gridRect.h cfg.titleText).1

/-- The title item after the title branch (source lines 78-91): html, position
by alignment, transform origin at the bounding-rect center, rotation 270. -/
def titleItemSpec (cfg : AxisConfig) (env : TextServices) (old : TextItem) : TextItem :=
  let html := titleHtml cfg env
  let tbr := env.itemRect html
  { html := html,
    posX :=
      match cfg.alignment with
      | .left => cfg.axisRect.left - tbr.w / 2 + tbr.h / 2 + cfg.titlePadding
      | .right => cfg.axisRect.right - tbr.w / 2 - tbr.h / 2 - cfg.titlePadding,
    posY := cfg.gridRect.centerY - tbr.centerY,
    originX := tbr.centerX, originY := tbr.centerY,
    rotation := 270, visible := old.visible }

/-- `availableSpace` as seen by the per-tick loop: the title branch (entered
when the title text is non-empty and the title item visible) subtracts
`titlePadding() * 2` and the title bounding-rect height. -/
def availSpace (cfg : AxisConfig) (env : TextServices) (st : AxisState) : ℚ :=
  if cfg.titleText ≠ "" ∧ st.titleItem.visible then
    availSpace0 cfg - cfg.titlePadding * 2 - (env.itemRect (titleHtml cfg env)).h
  else availSpace0 cfg

/-- One iteration of the per-tick loop of `updateGeometry` (source lines
96-185), acting on the item state and the running `height` threshold. -/
def vaStep (cfg : AxisConfig) (env : TextServices) (avail : ℚ) (s : AxisState × ℚ)
    (i : ℕ) : AxisState × ℚ :=
  let st := s.1
  let height := s.2
  let st := { st with gridItems := st.gridItems.set i (gridItemSpec cfg i) }
  let lbl := labelItemSpec cfg env avail height i (st.labelItems.getD i default)
  let st := { st with labelItems := st.labelItems.set i lbl }
  let st := { st with arrowItems := st.arrowItems.set (i + 1) (tickItemSpec cfg i) }
  let height := if lbl.visible then lbl.posY else height
  let st :=
    if (i + 1) % 2 ≠ 0 ∧ 1 < i then
      { st with shadeItems := st.shadeItems.set (i / 2 - 1) (shadeItemSpec cfg i) }
    else st
  (st, height)

/-- `VerticalAxis::updateGeometry`: early return on an empty layout, the arrow
and title updates, the per-tick loop started with `height = axisRect.bottom()`,
and the two always-visible interval-mode boundary grid lines. -/
def updateGeometry (cfg : AxisConfig) (env : TextServices) (st : AxisState) : AxisState :=
  if cfg.layout.isEmpty then st
  else
    let st1 :=
      { st with arrowItems := st.arrowItems.set 0 (arrowItemSpec cfg (st.arrowItems.getD 0 default)) }
    let avail := availSpace cfg env st
    let st2 :=
      if cfg.titleText ≠ "" ∧ st.titleItem.visible then
        { st1 with titleItem := titleItemSpec cfg env st.titleItem }
      else st1
    let n := cfg.layout.length
    let s := (List.range n).foldl (vaStep cfg env avail) (st2, cfg.axisRect.bottom)
    let st3 := s.1
    if cfg.intervalAxis then
      let topLine : LineItem :=
        { x1 := cfg.gridRect.left, y1 := cfg.gridRect.top, x2 := cfg.gridRect.right,
          y2 := cfg.gridRect.top, visible := true }
      let bottomLine : LineItem :=
        { x1 := cfg.gridRect.left, y1 := cfg.gridRect.bottom, x2 := cfg.gridRect.right,
          y2 := cfg.gridRect.bottom, visible := true }
      { st3 with gridItems := (st3.gridItems.set n topLine).set (n + 1) bottomLine }
    else st3

/-- The running "lowest allowed y" threshold before the loop body runs for
tick `k`: `axisRect.bottom()` initially, replaced by the position of each
label left visible. -/
def thresholdSeq (cfg : AxisConfig) (env : TextServices) (avail : ℚ) : ℕ → ℚ
  | 0 => cfg.axisRect.bottom
  | k + 1 =>
    let lbl := labelItemSpec cfg env avail (thresholdSeq cfg env avail k) k default
    if lbl.visible then lbl.posY else thresholdSeq cfg env avail k

/-! ### Concrete instances used to evaluate the embedded code -/

/-- Interval-mode configuration with two ticks where the clamped span between
tick 0 and tick 1 is narrower than the label box and touches the grid bottom:
layout `[12, 5]`, grid `y ∈ [0, 10]`, label boxes `20 × 6`. -/
def cfgIv : AxisConfig :=
  { layout := [12, 5], labelList := ["A", "B"], axisRect := ⟨-20, 0, 20, 10⟩,
    gridRect := ⟨0, 0, 100, 10⟩, alignment := .left, intervalAxis := true,
    labelPadding := 0, titlePadding := 0, titleText := "", labelsAngle := 0,
    labelsFont := 0, titleFont := 0 }

/-- Text services that render every string into a fixed `20 × 6` box. -/
def envIv : TextServices :=
  { truncatedText := fun _ _ _ _ t => (t, ⟨0, 0, 20, 6⟩),
    textBoundingRect := fun _ _ => ⟨0, 0, 3, 1⟩,
    itemRect := fun _ => ⟨0, 0, 20, 6⟩ }

/-- A pooled item state matching `cfgIv` (two ticks). -/
def stIv : AxisState :=
  { gridItems := List.replicate 4 default, labelItems := List.replicate 2 default,
    shadeItems := [], arrowItems := List.replicate 3 default, titleItem := default }

/-- Non-interval configuration with two ticks laid out bottom-to-top
(layout `[50, 20]`) inside a tall axis rectangle; label boxes `20 × 10`. -/
def cfgOv : AxisConfig :=
  { layout := [50, 20], labelList := ["A", "B"], axisRect := ⟨-20, 0, 20, 100⟩,
    gridRect := ⟨0, 0, 100, 100⟩, alignment := .left, intervalAxis := false,
    labelPadding := 0, titlePadding := 0, titleText := "", labelsAngle := 0,
    labelsFont := 0, titleFont := 0 }

/-- Text services that render every string into a fixed `20 × 10` box. -/
def envOv : TextServices :=
  { truncatedText := fun _ _ _ _ t => (t, ⟨0, 0, 20, 10⟩),
    textBoundingRect := fun _ _ => ⟨0, 0, 3, 1⟩,
    itemRect := fun _ => ⟨0, 0, 20, 10⟩ }

/-- A pooled item state matching `cfgOv` (two ticks). -/
def stOv : AxisState :=
  { gridItems := List.replicate 2 default, labelItems := List.replicate 2 default,
    shadeItems := [], arrowItems := List.replicate 3 default, titleItem := default }

/-- Four ticks whose pixel layout `[1, 2, 3, 4]` increases monotonically inside
grid `y ∈ [0, 10]`; one pooled shade band. -/
def cfgShUp : AxisConfig :=
  { layout := [1, 2, 3, 4], labelList := ["", "", "", ""], axisRect := ⟨-20, 0, 20, 10⟩,
    gridRect := ⟨0, 0, 100, 10⟩, alignment := .left, intervalAxis := false,
    labelPadding := 0, titlePadding := 0, titleText := "", labelsAngle := 0,
    labelsFont := 0, titleFont := 0 }

/-- A pooled item state matching `cfgShUp` (four ticks, one shade band). -/
def stShUp : AxisState :=
  { gridItems := List.replicate 4 default, labelItems := List.replicate 4 default,
    shadeItems := List.replicate 1 default, arrowItems := List.replicate 5 default,
    titleItem := default }

/-- Five ticks whose pixel layout `[8, 6, 4, 2, 1]` decreases monotonically
inside grid `y ∈ [0, 10]`; two pooled shade bands. -/
def cfgShDn : AxisConfig :=
  { layout := [8, 6, 4, 2, 1], labelList := ["", "", "", "", ""],
    axisRect := ⟨-20, 0, 20, 10⟩, gridRect := ⟨0, 0, 100, 10⟩, alignment := .left,
    intervalAxis := false, labelPadding := 0, titlePadding := 0, titleText := "",
    labelsAngle := 0, labelsFont := 0, titleFont := 0 }

/-- A pooled item state matching `cfgShDn` (five ticks, two shade bands). -/
def stShDn : AxisState :=
  { gridItems := List.replicate 5 default, labelItems := List.replicate 5 default,
    shadeItems := List.replicate 2 default, arrowItems := List.replicate 6 default,
    titleItem := default }

/-- Text services rendering every string into a fixed `4 × 2` box (the label
strings of the shade configurations are empty, so the values are immaterial). -/
def envPlain : TextServices :=
  { truncatedText := fun _ _ _ _ t => (t, ⟨0, 0, 4, 2⟩),
    textBoundingRect := fun _ _ => ⟨0, 0, 3, 1⟩,
    itemRect := fun _ => ⟨0, 0, 4, 2⟩ }

/-- A configuration whose tick layout is empty. -/
def cfgEmpty : AxisConfig :=
  { layout := [], labelList := [], axisRect := ⟨-20, 0, 20, 10⟩,
    gridRect := ⟨0, 0, 100, 10⟩, alignment := .left, intervalAxis := false,
    labelPadding := 5, titlePadding := 2, titleText := "T", labelsAngle := 0,
    labelsFont := 0, titleFont := 0 }

/-- A non-trivial item state for the empty-layout no-op check. -/
def stEmpty : AxisState :=
  { gridItems := [⟨1, 2, 3, 4, true⟩], labelItems := [⟨"x", 1, 2, 3, 4, 5, true⟩],
    shadeItems := [⟨⟨1, 2, 3, 4⟩, true⟩], arrowItems := [⟨5, 6, 7, 8, false⟩],
    titleItem := ⟨"t", 1, 2, 3, 4, 90, true⟩ }

/-! ## List helper lemmas -/

theorem range_one_concat (s n : ℕ) : List.range' s (n + 1) = List.range' s n ++ [s + n] := by
  have h : List.range' s (n + 1) 1 = List.range' s n 1 ++ [s + 1 * n] :=
    List.range'_concat s n
  simpa using h

theorem getD_of_getElem? {α : Type} [Inhabited α] (l : List α) (i : ℕ) (d : α) :
    l.getD i d = (l[i]?).getD d :=
  List.getD_eq_getElem?_getD l i d

theorem getElem?_set_same {α : Type} (l : List α) (i : ℕ) (a : α) (h : i < l.length) :
    (l.set i a)[i]? = some a :=
  List.getElem?_set_self h

theorem getD_set_same {α : Type} [Inhabited α] (l : List α) (i : ℕ) (a d : α)
    (h : i < l.length) : (l.set i a).getD i d = a := by
  rw [getD_of_getElem?, getElem?_set_same _ _ _ h]
  rfl

theorem getD_set_other {α : Type} [Inhabited α] (l : List α) (i j : ℕ) (a d : α)
    (h : i ≠ j) : (l.set i a).getD j d = l.getD j d := by
  rw [getD_of_getElem?, List.getElem?_set_ne h, ← getD_of_getElem?]

theorem getD_replicate_zero (n j : ℕ) : (List.replicate n (0 : ℚ)).getD j 0 = 0 := by
  rw [getD_of_getElem?, List.getElem?_replicate]
  split <;> rfl

theorem getD_map_range (f : ℕ → ℚ) (n i : ℕ) (h : i < n) :
    ((List.range n).map f).getD i 0 = f i := by
  rw [getD_of_getElem?, List.getElem?_map, List.getElem?_range h]
  rfl

/-! ## Thomas forward elimination: characterization -/

theorem fcpForward_zero (v : List ℚ) :
    fcpForward v 0 =
      ((List.replicate v.length 0).set 0 (v.getD 0 0 / 2),
       (List.replicate v.length 0).set 0 0, 2) := by
  simp [fcpForward]

theorem fcpForward_succ (v : List ℚ) (k : ℕ) :
    fcpForward v (k + 1) =
      let st := fcpForward v k
      let temp := st.2.1.set (k + 1) (1 / st.2.2)
      let b := (if k + 1 < v.length - 1 then (4 : ℚ) else 3.5) - temp.getD (k + 1) 0
      let result := st.1.set (k + 1) ((v.getD (k + 1) 0 - st.1.getD k 0) / b)
      (result, temp, b) := by
  show (List.range' 1 (k + 1)).foldl _ _ = _
  rw [range_one_concat, List.foldl_append]
  simp only [List.foldl_cons, List.foldl_nil]
  have h1 : 1 + k = k + 1 := by omega
  rw [h1]
  rfl

theorem fcpForward_char (v : List ℚ) (k : ℕ) (hk : k ≤ v.length - 1) :
    (fcpForward v k).2.2 = piv v k ∧
    (fcpForward v k).1.length = v.length ∧
    (fcpForward v k).2.1.length = v.length ∧
    (∀ j, j ≤ k → j < v.length → (fcpForward v k).1.getD j 0 = yval v j) ∧
    (∀ j, k < j → (fcpForward v k).1.getD j 0 = 0) ∧
    (∀ j, 1 ≤ j → j ≤ k → (fcpForward v k).2.1.getD j 0 = 1 / piv v (j - 1)) := by
  induction k with
  | zero =>
    rw [fcpForward_zero]
    refine ⟨rfl, by simp, by simp, ?_, ?_, ?_⟩
    · intro j hj hjlen
      interval_cases j
      rw [getD_set_same _ _ _ _ (by simpa using hjlen)]
      rfl
    · intro j hj
      rw [getD_set_other _ _ _ _ _ (by omega), getD_replicate_zero]
    · intro j hj hj0
      omega
  | succ k ih =>
    have hk' : k ≤ v.length - 1 := by omega
    have hcount : k + 1 < v.length := by omega
    obtain ⟨ihb, ihrl, ihtl, ihry, ihr0, iht⟩ := ih hk'
    rw [fcpForward_succ]
    simp only []
    have htempD : ((fcpForward v k).2.1.set (k + 1) (1 / (fcpForward v k).2.2)).getD (k + 1) 0
        = 1 / piv v k := by
      rw [getD_set_same _ _ _ _ (by omega : k + 1 < (fcpForward v k).2.1.length), ihb]
    have hb : (if k + 1 < v.length - 1 then (4 : ℚ) else 3.5)
        - ((fcpForward v k).2.1.set (k + 1) (1 / (fcpForward v k).2.2)).getD (k + 1) 0
        = piv v (k + 1) := by
      rw [htempD]
      rfl
    refine ⟨hb, by simpa using ihrl, by simpa using ihtl, ?_, ?_, ?_⟩
    · intro j hj hjlen
      rcases Nat.lt_or_ge j (k + 1) with hlt | hge
      · rw [getD_set_other _ _ _ _ _ (by omega)]
        exact ihry j (by omega) hjlen
      · have hje : j = k + 1 := by omega
        subst hje
        rw [getD_set_same _ _ _ _ (by omega : k + 1 < (fcpForward v k).1.length)]
        rw [hb, ihry k (by omega) (by omega)]
        rfl
    · intro j hj
      rw [getD_set_other _ _ _ _ _ (by omega)]
      exact ihr0 j (by omega)
    · intro j hj1 hjk
      rcases Nat.lt_or_ge j (k + 1) with hlt | hge
      · rw [getD_set_other _ _ _ _ _ (by omega)]
        exact iht j hj1 (by omega)
      · have hje : j = k + 1 := by omega
        subst hje
        rw [getD_set_same _ _ _ _ (by omega : k + 1 < (fcpForward v k).2.1.length), ihb]
        simp

/-! ## Back substitution: characterization -/

theorem xval_of_lt (v : List ℚ) (j : ℕ) (h : j + 1 < v.length) :
    xval v j = yval v j - 1 / piv v j * xval v (j + 1) := by
  rw [xval, if_pos h]

theorem xval_of_last (v : List ℚ) (j : ℕ) (h : ¬ j + 1 < v.length) :
    xval v j = yval v j := by
  rw [xval, if_neg h]

theorem fcpBackward_zero (count : ℕ) (temp result : List ℚ) :
    fcpBackward count temp result 0 = result := rfl

theorem fcpBackward_succ (count : ℕ) (temp result : List ℚ) (k : ℕ) :
    fcpBackward count temp result (k + 1) =
      let r := fcpBackward count temp result k
      r.set (count - (k + 1) - 1)
        (r.getD (count - (k + 1) - 1) 0
          - temp.getD (count - (k + 1)) 0 * r.getD (count - (k + 1)) 0) := by
  show (List.range' 1 (k + 1)).foldl _ _ = _
  rw [range_one_concat, List.foldl_append]
  simp only [List.foldl_cons, List.foldl_nil]
  have h1 : 1 + k = k + 1 := by omega
  rw [h1]
  rfl

theorem fcpBackward_char (v : List ℚ) (temp result : List ℚ)
    (hrl : result.length = v.length)
    (hry : ∀ j, j < v.length → result.getD j 0 = yval v j)
    (ht : ∀ j, 1 ≤ j → j ≤ v.length - 1 → temp.getD j 0 = 1 / piv v (j - 1)) :
    ∀ k, k ≤ v.length - 1 →
      (fcpBackward v.length temp result k).length = v.length ∧
      (∀ j, j < v.length →
        (fcpBackward v.length temp result k).getD j 0 =
          if v.length - 1 - k ≤ j then xval v j else yval v j) := by
  intro k
  induction k with
  | zero =>
    intro _
    rw [fcpBackward_zero]
    refine ⟨hrl, ?_⟩
    intro j hj
    rw [hry j hj]
    split
    · have hje : j = v.length - 1 := by omega
      subst hje
      rw [xval_of_last v _ (by omega)]
    · rfl
  | succ k ih =>
    intro hk
    obtain ⟨ihl, ihD⟩ := ih (by omega)
    rw [fcpBackward_succ]
    simp only []
    have hm : v.length - (k + 1) - 1 = v.length - k - 2 := by omega
    have hcount : k + 2 ≤ v.length := by omega
    have hmlt : v.length - k - 2 < v.length := by omega
    have hgetm : (fcpBackward v.length temp result k).getD (v.length - k - 2) 0
        = yval v (v.length - k - 2) := by
      rw [ihD _ hmlt, if_neg (by omega)]
    have hgetm1 : (fcpBackward v.length temp result k).getD (v.length - k - 1) 0
        = xval v (v.length - k - 1) := by
      rw [ihD _ (by omega), if_pos (by omega)]
    have h3 : v.length - (k + 1) = v.length - k - 1 := by omega
    have htm : temp.getD (v.length - (k + 1)) 0 = 1 / piv v (v.length - k - 2) := by
      have h5 : v.length - k - 1 - 1 = v.length - k - 2 := by omega
      rw [h3, ht (v.length - k - 1) (by omega) (by omega), h5]
    have h4 : v.length - k - 2 + 1 = v.length - k - 1 := by omega
    have hxm : xval v (v.length - k - 2) =
        yval v (v.length - k - 2) - 1 / piv v (v.length - k - 2) * xval v (v.length - k - 1) := by
      rw [xval_of_lt v (v.length - k - 2) (by omega), h4]
    refine ⟨by simpa using ihl, ?_⟩
    intro j hj
    rcases eq_or_ne j (v.length - k - 2) with hje | hne
    · subst hje
      rw [hm, getD_set_same _ _ _ _ (by omega : v.length - k - 2 <
          (fcpBackward v.length temp result k).length)]
      rw [hgetm, htm, h3, hgetm1, if_pos (by omega), hxm]
    · rw [hm, getD_set_other _ _ _ _ _ (by omega)]
      rw [ihD j hj]
      by_cases hcase : v.length - 1 - k ≤ j
      · rw [if_pos hcase, if_pos (by omega)]
      · rw [if_neg hcase, if_neg (by omega)]

/-! ## firstControlPoints: closed form and linear system -/

theorem firstControlPoints_length (v : List ℚ) :
    (firstControlPoints v).length = v.length := by
  unfold firstControlPoints
  rcases Nat.eq_zero_or_pos v.length with h0 | hpos
  · have hv : v = [] := List.length_eq_zero.mp h0
    subst hv
    rfl
  · obtain ⟨_, hrl, _, hry, _, ht⟩ := fcpForward_char v (v.length - 1) (le_refl _)
    exact (fcpBackward_char v _ _ hrl
      (fun j hj => by rw [hry j (by omega) hj])
      (fun j hj1 hj2 => ht j hj1 hj2) (v.length - 1) (le_refl _)).1

theorem firstControlPoints_getD (v : List ℚ) (j : ℕ) (hj : j < v.length) :
    (firstControlPoints v).getD j 0 = xval v j := by
  unfold firstControlPoints
  obtain ⟨_, hrl, _, hry, _, ht⟩ := fcpForward_char v (v.length - 1) (le_refl _)
  have := (fcpBackward_char v _ _ hrl
    (fun j hj => by rw [hry j (by omega) hj])
    (fun j hj1 hj2 => ht j hj1 hj2) (v.length - 1) (le_refl _)).2 j hj
  rw [this, if_pos (by omega)]

theorem piv_ge_two (v : List ℚ) (i : ℕ) : 2 ≤ piv v i := by
  induction i with
  | zero => norm_num [piv]
  | succ i ih =>
    have hpos : (0 : ℚ) < piv v i := by linarith
    have hinv : 1 / piv v i ≤ 1 / 2 := one_div_le_one_div_of_le (by norm_num) ih
    rw [piv]
    split <;> linarith

theorem piv_ge_three (v : List ℚ) (i : ℕ) (hi : 1 ≤ i) : 3 ≤ piv v i := by
  obtain ⟨i', rfl⟩ : ∃ i', i = i' + 1 := ⟨i - 1, by omega⟩
  have h2 := piv_ge_two v i'
  have hpos : (0 : ℚ) < piv v i' := by linarith
  have hinv : 1 / piv v i' ≤ 1 / 2 := one_div_le_one_div_of_le (by norm_num) h2
  rw [piv]
  split <;> linarith

theorem piv_ne_zero (v : List ℚ) (i : ℕ) : piv v i ≠ 0 := by
  have := piv_ge_two v i
  intro h
  rw [h] at this
  norm_num at this

/-- Row 0 of the solved system: `2 * x0 + x1 = v0`. -/
theorem xval_row_first (v : List ℚ) (h2 : 2 ≤ v.length) :
    2 * xval v 0 + xval v 1 = v.getD 0 0 := by
  rw [xval_of_lt v 0 (by omega)]
  have hp0 : piv v 0 = 2 := rfl
  have hy0 : yval v 0 = v.getD 0 0 / 2 := rfl
  rw [hp0, hy0]
  ring

/-- Interior row `i` of the solved system: `x(i-1) + 4 * xi + x(i+1) = vi`. -/
theorem xval_row_mid (v : List ℚ) (i : ℕ) (h1 : 1 ≤ i) (h2 : i + 1 ≤ v.length - 1) :
    xval v (i - 1) + 4 * xval v i + xval v (i + 1) = v.getD i 0 := by
  obtain ⟨i', rfl⟩ : ∃ i', i = i' + 1 := ⟨i - 1, by omega⟩
  have hlen : i' + 2 < v.length := by omega
  have hstep : xval v i' = yval v i' - 1 / piv v i' * xval v (i' + 1) :=
    xval_of_lt v i' (by omega)
  have hstep1 : xval v (i' + 1) = yval v (i' + 1) - 1 / piv v (i' + 1) * xval v (i' + 2) :=
    xval_of_lt v (i' + 1) (by omega)
  have hpiv : piv v (i' + 1) = 4 - 1 / piv v i' := by
    rw [piv, if_pos (by omega)]
  have hy : yval v (i' + 1) = (v.getD (i' + 1) 0 - yval v i') / piv v (i' + 1) := rfl
  have hpn : piv v (i' + 1) ≠ 0 := piv_ne_zero v (i' + 1)
  have hpn' : piv v i' ≠ 0 := piv_ne_zero v i'
  have hyv : piv v (i' + 1) * yval v (i' + 1) = v.getD (i' + 1) 0 - yval v i' := by
    rw [hy]
    field_simp
  have hv : v.getD (i' + 1) 0 = piv v (i' + 1) * yval v (i' + 1) + yval v i' := by
    linarith [hyv]
  have hred : i' + 1 - 1 = i' := by omega
  rw [hred, hstep, hstep1, hv, hpiv]
  have hqne : (4 : ℚ) - 1 / piv v i' ≠ 0 := by rw [← hpiv]; exact hpn
  have heq : (4 : ℚ) - 1 / piv v i' = (4 * piv v i' - 1) / piv v i' := by
    field_simp
  have h4p : 4 * piv v i' - 1 ≠ 0 := by
    intro h
    apply hqne
    rw [heq, h, zero_div]
  have h4p' : (-1 : ℚ) + piv v i' * 4 ≠ 0 := by
    intro h
    apply h4p
    linarith
  field_simp
  ring

/-- Last row of the solved system: `x(n-2) + 3.5 * x(n-1) = v(n-1)`. -/
theorem xval_row_last (v : List ℚ) (h2 : 2 ≤ v.length) :
    xval v (v.length - 2) + 3.5 * xval v (v.length - 1) = v.getD (v.length - 1) 0 := by
  obtain ⟨m, hm⟩ : ∃ m, v.length = m + 2 := ⟨v.length - 2, by omega⟩
  have hm2 : v.length - 2 = m := by omega
  have hm1 : v.length - 1 = m + 1 := by omega
  rw [hm2, hm1]
  have hstep : xval v m = yval v m - 1 / piv v m * xval v (m + 1) :=
    xval_of_lt v m (by omega)
  have hlast : xval v (m + 1) = yval v (m + 1) := xval_of_last v (m + 1) (by omega)
  have hpiv : piv v (m + 1) = 3.5 - 1 / piv v m := by
    rw [piv, if_neg (by omega)]
  have hy : yval v (m + 1) = (v.getD (m + 1) 0 - yval v m) / piv v (m + 1) := rfl
  have hpn : piv v (m + 1) ≠ 0 := piv_ne_zero v (m + 1)
  have hyv : piv v (m + 1) * yval v (m + 1) = v.getD (m + 1) 0 - yval v m := by
    rw [hy]
    field_simp
  rw [hstep, hlast]
  have expand : yval v m - 1 / piv v m * yval v (m + 1) + 3.5 * yval v (m + 1)
      = yval v m + (3.5 - 1 / piv v m) * yval v (m + 1) := by ring
  rw [expand, ← hpiv, hyv]
  ring

/-! ## splineVector: the right-hand-side entries -/

theorem splineVector_length (coords : List ℚ) :
    (splineVector coords).length = coords.length - 1 := by
  simp [splineVector]

theorem splineVector_getD_zero (coords : List ℚ) (h : 3 ≤ coords.length) :
    (splineVector coords).getD 0 0 = coords.getD 0 0 + 2 * coords.getD 1 0 := by
  unfold splineVector
  rw [getD_map_range _ _ _ (by omega)]
  rw [if_neg (by omega), if_pos rfl]

theorem splineVector_getD_mid (coords : List ℚ) (i : ℕ) (h1 : 1 ≤ i)
    (h2 : i + 1 ≤ coords.length - 1 - 1) :
    (splineVector coords).getD i 0 = 4 * coords.getD i 0 + 2 * coords.getD (i + 1) 0 := by
  unfold splineVector
  rw [getD_map_range _ _ _ (by omega)]
  rw [if_neg (by omega), if_neg (by omega)]

theorem splineVector_getD_last (coords : List ℚ) (h : 3 ≤ coords.length) :
    (splineVector coords).getD (coords.length - 1 - 1) 0 =
      (8 * coords.getD (coords.length - 1 - 1) 0 + coords.getD (coords.length - 1) 0) / 2 := by
  unfold splineVector
  rw [getD_map_range _ _ _ (by omega)]
  rw [if_pos rfl]

/-! ## calculateControlPoints: the write-out loop -/

theorem ccpStep_length (points : List Pt) (n : ℕ) (xc yc : List ℚ) (st : List Pt × ℕ)
    (i : ℕ) : ((ccpStep points n xc yc st i).1).length = st.1.length := by
  unfold ccpStep
  split <;> simp

theorem ccp_foldl_length (points : List Pt) (n : ℕ) (xc yc : List ℚ) :
    ∀ (l : List ℕ) (buf : List Pt) (j : ℕ),
      ((l.foldl (ccpStep points n xc yc) (buf, j)).1).length = buf.length := by
  intro l
  induction l with
  | nil => intro buf j; rfl
  | cons a l ih =>
    intro buf j
    rw [List.foldl_cons]
    have hstep := ccpStep_length points n xc yc (buf, j) a
    calc ((l.foldl (ccpStep points n xc yc) (ccpStep points n xc yc (buf, j) a)).1).length
        = ((ccpStep points n xc yc (buf, j) a).1).length := by
          have := ih (ccpStep points n xc yc (buf, j) a).1 (ccpStep points n xc yc (buf, j) a).2
          simpa using this
      _ = buf.length := hstep

theorem cpPairVal_even (points : List Pt) (n : ℕ) (xc yc : List ℚ) (k : ℕ) :
    cpPairVal points n xc yc (2 * k) = (xc.getD k 0, yc.getD k 0) := by
  unfold cpPairVal
  rw [if_pos (by omega : 2 * k % 2 = 0)]
  have hdiv : 2 * k / 2 = k := by omega
  rw [hdiv]

theorem cpPairVal_odd (points : List Pt) (n : ℕ) (xc yc : List ℚ) (k : ℕ) :
    cpPairVal points n xc yc (2 * k + 1) =
      if k < n - 1 then
        (2 * (points.getD (k + 1) (0, 0)).1 - xc.getD (k + 1) 0,
         2 * (points.getD (k + 1) (0, 0)).2 - yc.getD (k + 1) 0)
      else
        (((points.getD n (0, 0)).1 + xc.getD (n - 1) 0) / 2,
         ((points.getD n (0, 0)).2 + yc.getD (n - 1) 0) / 2) := by
  unfold cpPairVal
  rw [if_neg (by omega : ¬ (2 * k + 1) % 2 = 0)]
  have hdiv : (2 * k + 1) / 2 = k := by omega
  rw [hdiv]

theorem ccp_fold_char (points : List Pt) (n : ℕ) (xc yc : List ℚ) (buf : List Pt)
    (hbuf : buf.length = 2 * n) (k : ℕ) (hk : k ≤ n) :
    ((List.range k).foldl (ccpStep points n xc yc) (buf, 0)).2 = 2 * k ∧
    (∀ m d, m < 2 * k →
      ((List.range k).foldl (ccpStep points n xc yc) (buf, 0)).1.getD m d =
        cpPairVal points n xc yc m) ∧
    (∀ m d, 2 * k ≤ m →
      ((List.range k).foldl (ccpStep points n xc yc) (buf, 0)).1.getD m d = buf.getD m d) := by
  induction k with
  | zero =>
    refine ⟨rfl, ?_, ?_⟩
    · intro m d hm; omega
    · intro m d hm; rfl
  | succ k ih =>
    obtain ⟨ihj, ihw, ihu⟩ := ih (by omega)
    have hlen : ((List.range k).foldl (ccpStep points n xc yc) (buf, 0)).1.length = 2 * n := by
      rw [ccp_foldl_length, hbuf]
    rw [List.range_succ, List.foldl_append, List.foldl_cons, List.foldl_nil]
    set st := (List.range k).foldl (ccpStep points n xc yc) (buf, 0) with hst
    have hstep : ccpStep points n xc yc st k =
        (((st.1.set st.2 (xc.getD k 0, yc.getD k 0)).set (st.2 + 1)
          (if k < n - 1 then
            (2 * (points.getD (k + 1) (0, 0)).1 - xc.getD (k + 1) 0,
             2 * (points.getD (k + 1) (0, 0)).2 - yc.getD (k + 1) 0)
          else
            (((points.getD n (0, 0)).1 + xc.getD (n - 1) 0) / 2,
             ((points.getD n (0, 0)).2 + yc.getD (n - 1) 0) / 2))), st.2 + 1 + 1) := by
      unfold ccpStep
      split <;> simp
    rw [hstep, ihj]
    have hl1 : (st.1.set (2 * k) (xc.getD k 0, yc.getD k 0)).length = 2 * n := by
      rw [List.length_set, hlen]
    refine ⟨by omega, ?_, ?_⟩
    · intro m d hm
      rcases Nat.lt_or_ge m (2 * k) with hlt | hge
      · rw [getD_set_other _ _ _ _ _ (by omega), getD_set_other _ _ _ _ _ (by omega)]
        exact ihw m d hlt
      · rcases eq_or_ne m (2 * k) with hme | hmne
        · subst hme
          rw [getD_set_other _ _ _ _ _ (by omega)]
          rw [getD_set_same _ _ _ _ (by omega : 2 * k < st.1.length)]
          rw [cpPairVal_even]
        · have hme : m = 2 * k + 1 := by omega
          subst hme
          rw [getD_set_same _ _ _ _ (by omega : 2 * k + 1 <
            (st.1.set (2 * k) (xc.getD k 0, yc.getD k 0)).length)]
          rw [cpPairVal_odd]
    · intro m d hm
      rw [getD_set_other _ _ _ _ _ (by omega), getD_set_other _ _ _ _ _ (by omega)]
      exact ihu m d (by omega)

theorem calculateControlPoints_length (points buf : List Pt) :
    (calculateControlPoints points buf).length = buf.length := by
  simp only [calculateControlPoints]
  split
  · simp
  · rw [ccp_foldl_length]

theorem calculateControlPoints_getD (points buf : List Pt) (h3 : 3 ≤ points.length)
    (hbuf : buf.length = 2 * (points.length - 1)) (m : ℕ) (d : Pt)
    (hm : m < 2 * (points.length - 1)) :
    (calculateControlPoints points buf).getD m d =
      cpPairVal points (points.length - 1) (ctrlX points) (ctrlY points) m := by
  simp only [calculateControlPoints]
  rw [if_neg (by omega)]
  exact (ccp_fold_char points (points.length - 1) (ctrlX points) (ctrlY points) buf hbuf
    (points.length - 1) (le_refl _)).2.1 m d hm

theorem resizeBuf_length (l : List Pt) (m : ℕ) : (resizeBuf l m).length = m := by
  unfold resizeBuf
  simp
  omega

theorem updateControlPoints_length (points buf : List Pt) (h2 : 2 ≤ points.length) :
    (updateControlPoints points buf).length = 2 * (points.length - 1) := by
  unfold updateControlPoints
  rw [if_pos (by omega), calculateControlPoints_length, resizeBuf_length]
  omega

theorem updateControlPoints_getD (points buf : List Pt) (h3 : 3 ≤ points.length)
    (m : ℕ) (d : Pt) (hm : m < 2 * (points.length - 1)) :
    (updateControlPoints points buf).getD m d =
      cpPairVal points (points.length - 1) (ctrlX points) (ctrlY points) m := by
  unfold updateControlPoints
  rw [if_pos (by omega)]
  rw [calculateControlPoints_getD points _ h3 (by rw [resizeBuf_length]; omega) m d hm]

/-- Two lists of equal length and equal `getD` entries are equal. -/
theorem list_ext_getD {α : Type} [Inhabited α] (l1 l2 : List α)
    (hl : l1.length = l2.length)
    (h : ∀ m, m < l1.length → l1.getD m default = l2.getD m default) : l1 = l2 := by
  apply List.ext_getElem hl
  intro i h1 h2
  have := h i h1
  rw [getD_of_getElem?, getD_of_getElem?] at this
  rw [List.getElem?_eq_getElem h1, List.getElem?_eq_getElem h2] at this
  simpa using this

/-! ## Spline helper lemmas shared between claims -/

/-- The per-axis package for one coordinate list: the RHS entries built by
`calculateControlPoints` and the tridiagonal system (rows `(2,1)`,
`(1,4,1)`, `(1,3.5)`) satisfied by `firstControlPoints` of that RHS. -/
theorem spline_axis_system (coords : List ℚ) (h3 : 3 ≤ coords.length) :
    ((splineVector coords).length = coords.length - 1 ∧
     (splineVector coords).getD 0 0 = coords.getD 0 0 + 2 * coords.getD 1 0 ∧
     (∀ i, 1 ≤ i → i + 1 ≤ coords.length - 1 - 1 →
       (splineVector coords).getD i 0 =
         4 * coords.getD i 0 + 2 * coords.getD (i + 1) 0) ∧
     (splineVector coords).getD (coords.length - 1 - 1) 0 =
       (8 * coords.getD (coords.length - 1 - 1) 0 + coords.getD (coords.length - 1) 0) / 2) ∧
    (2 * (firstControlPoints (splineVector coords)).getD 0 0 +
        (firstControlPoints (splineVector coords)).getD 1 0 = (splineVector coords).getD 0 0 ∧
     (∀ i, 1 ≤ i → i + 1 ≤ coords.length - 1 - 1 →
       (firstControlPoints (splineVector coords)).getD (i - 1) 0 +
           4 * (firstControlPoints (splineVector coords)).getD i 0 +
           (firstControlPoints (splineVector coords)).getD (i + 1) 0 =
         (splineVector coords).getD i 0) ∧
     (firstControlPoints (splineVector coords)).getD (coords.length - 1 - 2) 0 +
         3.5 * (firstControlPoints (splineVector coords)).getD (coords.length - 1 - 1) 0 =
       (splineVector coords).getD (coords.length - 1 - 1) 0) := by
  have hb : (splineVector coords).length = coords.length - 1 := splineVector_length coords
  have hb2 : 2 ≤ (splineVector coords).length := by omega
  refine ⟨⟨hb, splineVector_getD_zero coords h3, ?_, splineVector_getD_last coords h3⟩,
    ?_, ?_, ?_⟩
  · intro i h1 h2
    exact splineVector_getD_mid coords i h1 h2
  · have h0 := firstControlPoints_getD (splineVector coords) 0 (by omega)
    have h1 := firstControlPoints_getD (splineVector coords) 1 (by omega)
    rw [h0, h1]
    exact xval_row_first (splineVector coords) hb2
  · intro i h1 h2
    have hi1 := firstControlPoints_getD (splineVector coords) (i - 1) (by omega)
    have hi := firstControlPoints_getD (splineVector coords) i (by omega)
    have hi2 := firstControlPoints_getD (splineVector coords) (i + 1) (by omega)
    rw [hi1, hi, hi2]
    exact xval_row_mid (splineVector coords) i h1 (by omega)
  · have hm := firstControlPoints_getD (splineVector coords) (coords.length - 1 - 2) (by omega)
    have hl := firstControlPoints_getD (splineVector coords) (coords.length - 1 - 1) (by omega)
    have heq1 : (splineVector coords).length - 2 = coords.length - 1 - 2 := by omega
    have heq2 : (splineVector coords).length - 1 = coords.length - 1 - 1 := by omega
    have := xval_row_last (splineVector coords) hb2
    rw [heq1, heq2] at this
    rw [hm, hl]
    exact this

/-- Closed form of `updateControlPoints` on a two-point series. -/
theorem updateControlPoints_two (p0 p1 : Pt) (buf : List Pt) :
    updateControlPoints [p0, p1] buf =
      [((2 * p0.1 + p1.1) / 3, (2 * p0.2 + p1.2) / 3),
       (2 * ((2 * p0.1 + p1.1) / 3) - p0.1, 2 * ((2 * p0.2 + p1.2) / 3) - p0.2)] := by
  have hlen : (resizeBuf buf (2 * ([p0, p1] : List Pt).length - 2)).length = 2 := by
    rw [resizeBuf_length]
    simp
  obtain ⟨a, b, hab⟩ := List.length_eq_two.mp hlen
  simp only [updateControlPoints]
  rw [if_pos (by simp)]
  rw [hab]
  simp only [calculateControlPoints]
  rw [if_pos (by simp)]
  simp [List.set]

/-- For at least two points, the result of `updateControlPoints` does not
depend on the previous contents of `m_controlPoints`. -/
theorem updateControlPoints_indep (points buf buf' : List Pt) (h2 : 2 ≤ points.length) :
    updateControlPoints points buf = updateControlPoints points buf' := by
  rcases eq_or_ne points.length 2 with h2e | hne
  · obtain ⟨p0, p1, hp⟩ := List.length_eq_two.mp h2e
    subst hp
    rw [updateControlPoints_two, updateControlPoints_two]
  · have h3 : 3 ≤ points.length := by omega
    apply list_ext_getD
    · rw [updateControlPoints_length points buf h2, updateControlPoints_length points buf' h2]
    · intro m hm
      rw [updateControlPoints_length points buf h2] at hm
      rw [updateControlPoints_getD points buf h3 m default hm,
        updateControlPoints_getD points buf' h3 m default hm]

/-! ## Claims C1-C4, C8, C10 -/

/-- C1 counterexample: on points (0,0), (0,0), (1,1) the per-axis first
control points do NOT satisfy the last row `1 * cp1[n-2] + 7 * cp1[n-1] =
b[n-1]` of the system the claim states (diagonal ...,7 with off-diagonals 1 and
the halved RHS): the x-axis solve gives cp1 = [-1/12, 1/6] with b = [0, 1/2],
and -1/12 + 7 * (1/6) = 13/12 ≠ 1/2. -/
theorem C1_counterexample :
    ¬ ((firstControlPoints (splineVector ([((0:ℚ), (0:ℚ)), (0, 0), (1, 1)].map Prod.fst))).getD 0 0
          + 7 * (firstControlPoints
              (splineVector ([((0:ℚ), (0:ℚ)), (0, 0), (1, 1)].map Prod.fst))).getD 1 0 =
        (splineVector ([((0:ℚ), (0:ℚ)), (0, 0), (1, 1)].map Prod.fst)).getD 1 0) := by
  norm_num [firstControlPoints, fcpForward, fcpBackward, splineVector, List.range',
    List.range_succ, List.replicate, List.set]

/-- C1 (amended): for every point sequence of length >= 3 (n = len - 1
segments), per axis the RHS vector satisfies `b[0] = P0 + 2*P1`,
`b[i] = 4*P[i] + 2*P[i+1]` for interior i and `b[n-1] = (8*P[n-1] + P[n]) / 2`,
and the first control points produced by the Thomas elimination in
`firstControlPoints` satisfy the tridiagonal system with rows `(2, 1)`,
`(1, 4, 1)`, ..., and last row `(1, 3.5)` (equivalently `(2, 7)` against the
unhalved RHS `8*P[n-1] + P[n]`) — not `(1, 7)` against the halved RHS as the
claim stated. -/
theorem C1_amended_thm (points : List Pt) (h3 : 3 ≤ points.length) :
    ∀ coords ∈ [points.map Prod.fst, points.map Prod.snd],
      ((splineVector coords).length = points.length - 1 ∧
       (splineVector coords).getD 0 0 = coords.getD 0 0 + 2 * coords.getD 1 0 ∧
       (∀ i, 1 ≤ i → i + 1 ≤ points.length - 1 - 1 →
         (splineVector coords).getD i 0 =
           4 * coords.getD i 0 + 2 * coords.getD (i + 1) 0) ∧
       (splineVector coords).getD (points.length - 1 - 1) 0 =
         (8 * coords.getD (points.length - 1 - 1) 0 + coords.getD (points.length - 1) 0) / 2) ∧
      (2 * (firstControlPoints (splineVector coords)).getD 0 0 +
          (firstControlPoints (splineVector coords)).getD 1 0 =
            (splineVector coords).getD 0 0 ∧
       (∀ i, 1 ≤ i → i + 1 ≤ points.length - 1 - 1 →
         (firstControlPoints (splineVector coords)).getD (i - 1) 0 +
             4 * (firstControlPoints (splineVector coords)).getD i 0 +
             (firstControlPoints (splineVector coords)).getD (i + 1) 0 =
           (splineVector coords).getD i 0) ∧
       (firstControlPoints (splineVector coords)).getD (points.length - 1 - 2) 0 +
           3.5 * (firstControlPoints (splineVector coords)).getD (points.length - 1 - 1) 0 =
         (splineVector coords).getD (points.length - 1 - 1) 0) := by
  intro coords hc
  rw [List.mem_cons, List.mem_singleton] at hc
  have hclen : coords.length = points.length := by
    rcases hc with rfl | rfl
    · exact List.length_map points Prod.fst
    · exact List.length_map points Prod.snd
  have := spline_axis_system coords (by omega)
  rw [hclen] at this
  exact this

/-- C1 witness: the amended claim at the three points (0,0), (1,2), (2,0). -/
theorem C1_witness :
    3 ≤ ([((0:ℚ), (0:ℚ)), (1, 2), (2, 0)] : List Pt).length ∧
    ∀ coords ∈ [([((0:ℚ), (0:ℚ)), (1, 2), (2, 0)] : List Pt).map Prod.fst,
        ([((0:ℚ), (0:ℚ)), (1, 2), (2, 0)] : List Pt).map Prod.snd],
      ((splineVector coords).length = ([((0:ℚ), (0:ℚ)), (1, 2), (2, 0)] : List Pt).length - 1 ∧
       (splineVector coords).getD 0 0 = coords.getD 0 0 + 2 * coords.getD 1 0 ∧
       (∀ i, 1 ≤ i → i + 1 ≤ ([((0:ℚ), (0:ℚ)), (1, 2), (2, 0)] : List Pt).length - 1 - 1 →
         (splineVector coords).getD i 0 =
           4 * coords.getD i 0 + 2 * coords.getD (i + 1) 0) ∧
       (splineVector coords).getD (([((0:ℚ), (0:ℚ)), (1, 2), (2, 0)] : List Pt).length - 1 - 1) 0 =
         (8 * coords.getD (([((0:ℚ), (0:ℚ)), (1, 2), (2, 0)] : List Pt).length - 1 - 1) 0 +
             coords.getD (([((0:ℚ), (0:ℚ)), (1, 2), (2, 0)] : List Pt).length - 1) 0) / 2) ∧
      (2 * (firstControlPoints (splineVector coords)).getD 0 0 +
          (firstControlPoints (splineVector coords)).getD 1 0 =
            (splineVector coords).getD 0 0 ∧
       (∀ i, 1 ≤ i → i + 1 ≤ ([((0:ℚ), (0:ℚ)), (1, 2), (2, 0)] : List Pt).length - 1 - 1 →
         (firstControlPoints (splineVector coords)).getD (i - 1) 0 +
             4 * (firstControlPoints (splineVector coords)).getD i 0 +
             (firstControlPoints (splineVector coords)).getD (i + 1) 0 =
           (splineVector coords).getD i 0) ∧
       (firstControlPoints (splineVector coords)).getD
             (([((0:ℚ), (0:ℚ)), (1, 2), (2, 0)] : List Pt).length - 1 - 2) 0 +
           3.5 * (firstControlPoints (splineVector coords)).getD
             (([((0:ℚ), (0:ℚ)), (1, 2), (2, 0)] : List Pt).length - 1 - 1) 0 =
         (splineVector coords).getD
           (([((0:ℚ), (0:ℚ)), (1, 2), (2, 0)] : List Pt).length - 1 - 1) 0) :=
  ⟨by decide, C1_amended_thm [((0:ℚ), (0:ℚ)), (1, 2), (2, 0)] (by decide)⟩

/-- C2: for every point sequence of length >= 2, updating the control points
stores exactly `2 * (len - 1)` entries (one pair per segment), every one of
which is freshly written: the result does not depend on the previous buffer. -/
theorem C2_thm (points buf buf' : List Pt) (h2 : 2 ≤ points.length) :
    (updateControlPoints points buf).length = 2 * (points.length - 1) ∧
    updateControlPoints points buf = updateControlPoints points buf' := by
  exact ⟨updateControlPoints_length points buf h2, updateControlPoints_indep points buf buf' h2⟩

/-- C2 witness at the two points (0,0), (3,9). -/
theorem C2_witness :
    2 ≤ ([((0:ℚ), (0:ℚ)), (3, 9)] : List Pt).length ∧
    ((updateControlPoints [((0:ℚ), (0:ℚ)), (3, 9)] []).length =
        2 * (([((0:ℚ), (0:ℚ)), (3, 9)] : List Pt).length - 1) ∧
      updateControlPoints [((0:ℚ), (0:ℚ)), (3, 9)] [] =
        updateControlPoints [((0:ℚ), (0:ℚ)), (3, 9)] [(5, 5)]) :=
  ⟨by decide, C2_thm [((0:ℚ), (0:ℚ)), (3, 9)] [] [(5, 5)] (by decide)⟩

/-- C3: on a two-point series the update stores the closed-form pair
`cp1 = (2*P0 + P1)/3`, `cp2 = 2*cp1 - P0`; in particular for P0 = (0,0),
P1 = (3,9) it stores cp1 = (1,3) and cp2 = (2,6). -/
theorem C3_thm :
    (∀ (p0 p1 : Pt) (buf : List Pt),
      updateControlPoints [p0, p1] buf =
        [((2 * p0.1 + p1.1) / 3, (2 * p0.2 + p1.2) / 3),
         (2 * ((2 * p0.1 + p1.1) / 3) - p0.1, 2 * ((2 * p0.2 + p1.2) / 3) - p0.2)]) ∧
    updateControlPoints [((0:ℚ), (0:ℚ)), (3, 9)] [] = [(1, 3), (2, 6)] := by
  constructor
  · intro p0 p1 buf
    exact updateControlPoints_two p0 p1 buf
  · rw [updateControlPoints_two]
    norm_num

/-- C4: for length >= 3, odd buffer slots hold the second control points:
`cp2[i] = 2*P[i+1] - cp1[i+1]` for `i < n-1` and
`cp2[n-1] = (P[n] + cp1[n-1]) / 2`, componentwise per axis. -/
theorem C4_thm (points buf : List Pt) (h3 : 3 ≤ points.length) :
    (∀ i, i + 1 < points.length - 1 →
      (updateControlPoints points buf).getD (2 * i + 1) (0, 0) =
        (2 * (points.getD (i + 1) (0, 0)).1 - (ctrlX points).getD (i + 1) 0,
         2 * (points.getD (i + 1) (0, 0)).2 - (ctrlY points).getD (i + 1) 0)) ∧
    (updateControlPoints points buf).getD (2 * (points.length - 1 - 1) + 1) (0, 0) =
      (((points.getD (points.length - 1) (0, 0)).1 +
          (ctrlX points).getD (points.length - 1 - 1) 0) / 2,
       ((points.getD (points.length - 1) (0, 0)).2 +
          (ctrlY points).getD (points.length - 1 - 1) 0) / 2) := by
  constructor
  · intro i hi
    rw [updateControlPoints_getD points buf h3 (2 * i + 1) (0, 0) (by omega)]
    rw [cpPairVal_odd, if_pos (by omega)]
  · rw [updateControlPoints_getD points buf h3 (2 * (points.length - 1 - 1) + 1) (0, 0)
      (by omega)]
    rw [cpPairVal_odd, if_neg (by omega)]

/-- C4 witness at the three points (0,0), (1,2), (2,0). -/
theorem C4_witness :
    3 ≤ ([((0:ℚ), (0:ℚ)), (1, 2), (2, 0)] : List Pt).length ∧
    ((∀ i, i + 1 < ([((0:ℚ), (0:ℚ)), (1, 2), (2, 0)] : List Pt).length - 1 →
      (updateControlPoints [((0:ℚ), (0:ℚ)), (1, 2), (2, 0)] []).getD (2 * i + 1) (0, 0) =
        (2 * (([((0:ℚ), (0:ℚ)), (1, 2), (2, 0)] : List Pt).getD (i + 1) (0, 0)).1 -
            (ctrlX [((0:ℚ), (0:ℚ)), (1, 2), (2, 0)]).getD (i + 1) 0,
         2 * (([((0:ℚ), (0:ℚ)), (1, 2), (2, 0)] : List Pt).getD (i + 1) (0, 0)).2 -
            (ctrlY [((0:ℚ), (0:ℚ)), (1, 2), (2, 0)]).getD (i + 1) 0)) ∧
    (updateControlPoints [((0:ℚ), (0:ℚ)), (1, 2), (2, 0)] []).getD
        (2 * (([((0:ℚ), (0:ℚ)), (1, 2), (2, 0)] : List Pt).length - 1 - 1) + 1) (0, 0) =
      (((([((0:ℚ), (0:ℚ)), (1, 2), (2, 0)] : List Pt).getD
            (([((0:ℚ), (0:ℚ)), (1, 2), (2, 0)] : List Pt).length - 1) (0, 0)).1 +
          (ctrlX [((0:ℚ), (0:ℚ)), (1, 2), (2, 0)]).getD
            (([((0:ℚ), (0:ℚ)), (1, 2), (2, 0)] : List Pt).length - 1 - 1) 0) / 2,
       ((([((0:ℚ), (0:ℚ)), (1, 2), (2, 0)] : List Pt).getD
            (([((0:ℚ), (0:ℚ)), (1, 2), (2, 0)] : List Pt).length - 1) (0, 0)).2 +
          (ctrlY [((0:ℚ), (0:ℚ)), (1, 2), (2, 0)]).getD
            (([((0:ℚ), (0:ℚ)), (1, 2), (2, 0)] : List Pt).length - 1 - 1) 0) / 2)) :=
  ⟨by decide, C4_thm [((0:ℚ), (0:ℚ)), (1, 2), (2, 0)] [] (by decide)⟩

/-- C8 counterexample: a removal that leaves a single point does NOT replace
the stored control-point sequence: the stale two pairs remain, although a
complete recomputation from the one-point set has `max(0, 1-1) = 0` pairs. -/
theorem C8_counterexample :
    onMutation .removed [((0:ℚ), (0:ℚ))] [(1, 3), (2, 6)] = [(1, 3), (2, 6)] ∧
    ([((1:ℚ), (3:ℚ)), (2, 6)] : List Pt).length ≠ 0 := by
  constructor
  · rw [onMutation, updateControlPoints, if_neg (by simp)]
  · simp

/-- C8 (amended): every mutation signal triggers the same update which, when
at least two points remain, fully replaces the stored sequence with the
complete recomputation from the current point set (independent of the old
buffer, of the recomputed length); when fewer than two points remain the
stored sequence is left unchanged. -/
theorem C8_amended_thm (e : MutationEvent) (points buf buf' : List Pt) :
    (2 ≤ points.length →
      onMutation e points buf = onMutation e points buf' ∧
      (onMutation e points buf).length = 2 * (points.length - 1)) ∧
    (points.length ≤ 1 → onMutation e points buf = buf) := by
  constructor
  · intro h2
    exact ⟨updateControlPoints_indep points buf buf' h2,
      updateControlPoints_length points buf h2⟩
  · intro h1
    rw [onMutation, updateControlPoints, if_neg (by omega)]

/-- C8 witness: both branches of the amended claim at concrete inputs. -/
theorem C8_witness :
    (2 ≤ ([((0:ℚ), (0:ℚ)), (3, 9)] : List Pt).length ∧
      (onMutation .added [((0:ℚ), (0:ℚ)), (3, 9)] [] =
          onMutation .added [((0:ℚ), (0:ℚ)), (3, 9)] [(1, 1)] ∧
        (onMutation .added [((0:ℚ), (0:ℚ)), (3, 9)] []).length =
          2 * (([((0:ℚ), (0:ℚ)), (3, 9)] : List Pt).length - 1))) ∧
    (([((5:ℚ), (5:ℚ))] : List Pt).length ≤ 1 ∧
      onMutation .removed [((5:ℚ), (5:ℚ))] [(9, 9)] = [(9, 9)]) :=
  ⟨⟨by decide, (C8_amended_thm .added [((0:ℚ), (0:ℚ)), (3, 9)] [] [(1, 1)]).1 (by decide)⟩,
   ⟨by decide, (C8_amended_thm .removed [((5:ℚ), (5:ℚ))] [(9, 9)] []).2 (by decide)⟩⟩

/-- C10: the Thomas forward elimination in `firstControlPoints` never divides
by zero: the pivot `b` starts at 2, every stored reciprocal `temp[k] = 1/b`
lies in (0, 1/2], and every subsequent pivot equals `(4 or 3.5)` minus that
reciprocal, hence is at least 3; so the solve is total on all inputs. -/
theorem C10_thm (v : List ℚ) (h1 : 1 ≤ v.length) :
    (fcpForward v 0).2.2 = 2 ∧
    ∀ k, 1 ≤ k → k ≤ v.length - 1 →
      (0 < (fcpForward v k).2.1.getD k 0 ∧ (fcpForward v k).2.1.getD k 0 ≤ 1 / 2) ∧
      (fcpForward v k).2.2 =
        (if k < v.length - 1 then (4 : ℚ) else 3.5) - (fcpForward v k).2.1.getD k 0 ∧
      3 ≤ (fcpForward v k).2.2 := by
  refine ⟨by rw [fcpForward_zero], ?_⟩
  intro k hk1 hk2
  obtain ⟨hb, _, _, _, _, ht⟩ := fcpForward_char v k hk2
  have htk : (fcpForward v k).2.1.getD k 0 = 1 / piv v (k - 1) := ht k hk1 (le_refl k)
  have hp2 : 2 ≤ piv v (k - 1) := piv_ge_two v (k - 1)
  have hppos : (0 : ℚ) < piv v (k - 1) := by linarith
  refine ⟨⟨?_, ?_⟩, ?_, ?_⟩
  · rw [htk]
    positivity
  · rw [htk]
    exact one_div_le_one_div_of_le (by norm_num) hp2
  · rw [htk, hb]
    obtain ⟨k', rfl⟩ : ∃ k', k = k' + 1 := ⟨k - 1, by omega⟩
    rw [piv]
    simp
  · rw [hb]
    exact piv_ge_three v k hk1

/-- C10 witness at the vector [1, 2, 3]. -/
theorem C10_witness :
    1 ≤ ([1, 2, 3] : List ℚ).length ∧
    ((fcpForward [1, 2, 3] 0).2.2 = 2 ∧
      ∀ k, 1 ≤ k → k ≤ ([1, 2, 3] : List ℚ).length - 1 →
        (0 < (fcpForward [1, 2, 3] k).2.1.getD k 0 ∧
          (fcpForward [1, 2, 3] k).2.1.getD k 0 ≤ 1 / 2) ∧
        (fcpForward [1, 2, 3] k).2.2 =
          (if k < ([1, 2, 3] : List ℚ).length - 1 then (4 : ℚ) else 3.5) -
            (fcpForward [1, 2, 3] k).2.1.getD k 0 ∧
        3 ≤ (fcpForward [1, 2, 3] k).2.2) :=
  ⟨by decide, C10_thm [1, 2, 3] (by decide)⟩

/-! ## VerticalAxis: loop characterization -/

theorem labelItemSpec_visible_indep (cfg : AxisConfig) (env : TextServices) (avail h : ℚ)
    (i : ℕ) (old : TextItem) :
    (labelItemSpec cfg env avail h i old).visible =
      (labelItemSpec cfg env avail h i default).visible := rfl

theorem labelItemSpec_posY_indep (cfg : AxisConfig) (env : TextServices) (avail h : ℚ)
    (i : ℕ) (old : TextItem) :
    (labelItemSpec cfg env avail h i old).posY =
      (labelItemSpec cfg env avail h i default).posY := rfl

theorem vaStep_labelItems (cfg : AxisConfig) (env : TextServices) (avail : ℚ)
    (s : AxisState × ℚ) (i : ℕ) :
    ((vaStep cfg env avail s i).1).labelItems =
      s.1.labelItems.set i
        (labelItemSpec cfg env avail s.2 i (s.1.labelItems.getD i default)) := by
  simp only [vaStep]
  split <;> rfl

theorem vaStep_snd (cfg : AxisConfig) (env : TextServices) (avail : ℚ)
    (s : AxisState × ℚ) (i : ℕ) :
    (vaStep cfg env avail s i).2 =
      if (labelItemSpec cfg env avail s.2 i (s.1.labelItems.getD i default)).visible then
        (labelItemSpec cfg env avail s.2 i (s.1.labelItems.getD i default)).posY
      else s.2 := by
  simp only [vaStep]

theorem vaStep_shadeItems (cfg : AxisConfig) (env : TextServices) (avail : ℚ)
    (s : AxisState × ℚ) (i : ℕ) :
    ((vaStep cfg env avail s i).1).shadeItems =
      if (i + 1) % 2 ≠ 0 ∧ 1 < i then
        s.1.shadeItems.set (i / 2 - 1) (shadeItemSpec cfg i)
      else s.1.shadeItems := by
  simp only [vaStep]
  split <;> rfl

theorem vaFold_snd (cfg : AxisConfig) (env : TextServices) (avail : ℚ) (st2 : AxisState)
    (k : ℕ) :
    ((List.range k).foldl (vaStep cfg env avail) (st2, cfg.axisRect.bottom)).2 =
      thresholdSeq cfg env avail k := by
  induction k with
  | zero => rfl
  | succ k ih =>
    rw [List.range_succ, List.foldl_append, List.foldl_cons, List.foldl_nil]
    rw [vaStep_snd, ih]
    rw [labelItemSpec_visible_indep, labelItemSpec_posY_indep]
    rfl

theorem vaFold_labels (cfg : AxisConfig) (env : TextServices) (avail : ℚ) (st2 : AxisState)
    (k : ℕ) (i : ℕ) :
    ((List.range k).foldl (vaStep cfg env avail) (st2, cfg.axisRect.bottom)).1.labelItems[i]? =
      if i < k then
        (st2.labelItems[i]?).map
          (fun old => labelItemSpec cfg env avail (thresholdSeq cfg env avail i) i old)
      else st2.labelItems[i]? := by
  induction k with
  | zero => rw [if_neg (by omega)]; rfl
  | succ k ih =>
    rw [List.range_succ, List.foldl_append, List.foldl_cons, List.foldl_nil]
    rw [vaStep_labelItems]
    set s := (List.range k).foldl (vaStep cfg env avail) (st2, cfg.axisRect.bottom) with hs
    have hsnd : s.2 = thresholdSeq cfg env avail k := vaFold_snd cfg env avail st2 k
    rcases Nat.lt_or_ge i k with hik | hik
    · rw [List.getElem?_set_ne (by omega), ih, if_pos hik, if_pos (by omega)]
    · rcases eq_or_ne i k with rfl | hne
      · rw [if_pos (by omega)]
        have hsk : s.1.labelItems[i]? = st2.labelItems[i]? := by
          rw [ih, if_neg (by omega)]
        rcases h2 : st2.labelItems[i]? with _ | old
        · have hnone : s.1.labelItems[i]? = none := by rw [hsk, h2]
          have hlen : s.1.labelItems.length ≤ i := List.getElem?_eq_none_iff.mp hnone
          rw [List.set_eq_of_length_le hlen, hnone]
          rfl
        · have hsome : s.1.labelItems[i]? = some old := by rw [hsk, h2]
          have hlen : i < s.1.labelItems.length := by
            rcases Nat.lt_or_ge i s.1.labelItems.length with h | h
            · exact h
            · rw [List.getElem?_eq_none_iff.mpr h] at hsome
              cases hsome
          have hgetD : s.1.labelItems.getD i default = old := by
            rw [getD_of_getElem?, hsome]
            rfl
          rw [getElem?_set_same _ _ _ hlen, hgetD, hsnd]
          rfl
      · rw [List.getElem?_set_ne (by omega), ih, if_neg (by omega), if_neg (by omega)]

theorem vaFold_shades (cfg : AxisConfig) (env : TextServices) (avail : ℚ) (st2 : AxisState)
    (k : ℕ) (q : ℕ) :
    ((List.range k).foldl (vaStep cfg env avail) (st2, cfg.axisRect.bottom)).1.shadeItems[q]? =
      if 2 * q + 2 < k then
        (st2.shadeItems[q]?).map (fun _ => shadeItemSpec cfg (2 * q + 2))
      else st2.shadeItems[q]? := by
  induction k with
  | zero => rw [if_neg (by omega)]; rfl
  | succ k ih =>
    rw [List.range_succ, List.foldl_append, List.foldl_cons, List.foldl_nil]
    rw [vaStep_shadeItems]
    set s := (List.range k).foldl (vaStep cfg env avail) (st2, cfg.axisRect.bottom) with hs
    by_cases htouch : (k + 1) % 2 ≠ 0 ∧ 1 < k
    · rw [if_pos htouch]
      obtain ⟨hpar, hk1⟩ := htouch
      rcases eq_or_ne q (k / 2 - 1) with hqe | hne
      · have hkq : 2 * q + 2 = k := by omega
        rw [if_pos (by omega), hkq, ← hqe]
        have hsk : s.1.shadeItems[q]? = st2.shadeItems[q]? := by
          rw [ih, if_neg (by omega)]
        rcases h2 : st2.shadeItems[q]? with _ | old
        · have hnone : s.1.shadeItems[q]? = none := by rw [hsk, h2]
          have hlen : s.1.shadeItems.length ≤ q := List.getElem?_eq_none_iff.mp hnone
          rw [List.set_eq_of_length_le hlen, hnone]
          rfl
        · have hsome : s.1.shadeItems[q]? = some old := by rw [hsk, h2]
          have hlen : q < s.1.shadeItems.length := by
            rcases Nat.lt_or_ge q s.1.shadeItems.length with h | h
            · exact h
            · rw [List.getElem?_eq_none_iff.mpr h] at hsome
              cases hsome
          rw [getElem?_set_same _ _ _ hlen]
          rfl
      · have hkq : 2 * q + 2 ≠ k := by omega
        rw [List.getElem?_set_ne (by omega), ih]
        by_cases hq : 2 * q + 2 < k
        · rw [if_pos hq, if_pos (by omega)]
        · rw [if_neg hq, if_neg (by omega)]
    · rw [if_neg htouch, ih]
      have hpar : 2 * q + 2 < k + 1 ↔ 2 * q + 2 < k := by
        constructor
        · intro h
          rcases Nat.lt_or_ge (2 * q + 2) k with h' | h'
          · exact h'
          · have hk2 : 2 * q + 2 = k := by omega
            exfalso
            apply htouch
            omega
        · intro h; omega
      by_cases hq : 2 * q + 2 < k
      · rw [if_pos hq, if_pos (by omega)]
      · rw [if_neg hq, if_neg (by rw [hpar]; exact hq)]

theorem vaStep_shadeItems_length (cfg : AxisConfig) (env : TextServices) (avail : ℚ)
    (s : AxisState × ℚ) (i : ℕ) :
    ((vaStep cfg env avail s i).1).shadeItems.length = s.1.shadeItems.length := by
  rw [vaStep_shadeItems]
  split <;> simp

theorem vaFold_shadeItems_length (cfg : AxisConfig) (env : TextServices) (avail : ℚ)
    (st2 : AxisState) (k : ℕ) :
    ((List.range k).foldl (vaStep cfg env avail) (st2, cfg.axisRect.bottom)).1.shadeItems.length =
      st2.shadeItems.length := by
  induction k with
  | zero => rfl
  | succ k ih =>
    rw [List.range_succ, List.foldl_append, List.foldl_cons, List.foldl_nil]
    rw [vaStep_shadeItems_length, ih]

/-- Entering `updateGeometry` with a non-empty layout: the label items of the
result are the label items of the per-tick fold. -/
theorem updateGeometry_labels (cfg : AxisConfig) (env : TextServices) (st : AxisState)
    (hne : cfg.layout ≠ []) (i : ℕ) (hi : i < st.labelItems.length) :
    (updateGeometry cfg env st).labelItems[i]? =
      if i < cfg.layout.length then
        some (labelItemSpec cfg env (availSpace cfg env st)
          (thresholdSeq cfg env (availSpace cfg env st) i) i (st.labelItems.getD i default))
      else st.labelItems[i]? := by
  have hie : cfg.layout.isEmpty = false := by
    cases h : cfg.layout
    · exact absurd h hne
    · rfl
  obtain ⟨a, ha⟩ : ∃ a, st.labelItems[i]? = some a := ⟨st.labelItems[i],
    List.getElem?_eq_getElem hi⟩
  have hgetD : st.labelItems.getD i default = a := by
    rw [getD_of_getElem?, ha]
    rfl
  simp only [updateGeometry, hie, Bool.false_eq_true, if_false]
  have hlabels2 :
      (if cfg.titleText ≠ "" ∧ st.titleItem.visible then
        { st with
            arrowItems := st.arrowItems.set 0 (arrowItemSpec cfg (st.arrowItems.getD 0 default)),
            titleItem := titleItemSpec cfg env st.titleItem }
      else
        { st with
            arrowItems :=
              st.arrowItems.set 0 (arrowItemSpec cfg (st.arrowItems.getD 0 default)) }).labelItems
        = st.labelItems := by
    split <;> rfl
  split
  · rw [vaFold_labels]
    split
    · rw [hlabels2, ha, hgetD]
      rfl
    · rw [hlabels2, ha]
  · rw [vaFold_labels]
    split
    · rw [hlabels2, ha, hgetD]
      rfl
    · rw [hlabels2, ha]

/-- Entering `updateGeometry` with a non-empty layout: shade band `q` of the
result, for `2q+2` within the layout, is the band written at loop index
`2q+2`. -/
theorem updateGeometry_shades (cfg : AxisConfig) (env : TextServices) (st : AxisState)
    (hne : cfg.layout ≠ []) (q : ℕ) (hq : q < st.shadeItems.length)
    (hqn : 2 * q + 2 < cfg.layout.length) :
    (updateGeometry cfg env st).shadeItems[q]? = some (shadeItemSpec cfg (2 * q + 2)) := by
  have hie : cfg.layout.isEmpty = false := by
    cases h : cfg.layout
    · exact absurd h hne
    · rfl
  obtain ⟨a, ha⟩ : ∃ a, st.shadeItems[q]? = some a := ⟨st.shadeItems[q],
    List.getElem?_eq_getElem hq⟩
  simp only [updateGeometry, hie, Bool.false_eq_true, if_false]
  have hshades2 :
      (if cfg.titleText ≠ "" ∧ st.titleItem.visible then
        { st with
            arrowItems := st.arrowItems.set 0 (arrowItemSpec cfg (st.arrowItems.getD 0 default)),
            titleItem := titleItemSpec cfg env st.titleItem }
      else
        { st with
            arrowItems :=
              st.arrowItems.set 0 (arrowItemSpec cfg (st.arrowItems.getD 0 default)) }).shadeItems
        = st.shadeItems := by
    split <;> rfl
  split
  · rw [vaFold_shades, if_pos hqn, hshades2, ha]
    rfl
  · rw [vaFold_shades, if_pos hqn, hshades2, ha]
    rfl

theorem updateGeometry_shadeItems_length (cfg : AxisConfig) (env : TextServices)
    (st : AxisState) :
    (updateGeometry cfg env st).shadeItems.length = st.shadeItems.length := by
  simp only [updateGeometry]
  split
  · rfl
  · have hshades2 :
        (if cfg.titleText ≠ "" ∧ st.titleItem.visible then
          { st with
              arrowItems := st.arrowItems.set 0 (arrowItemSpec cfg (st.arrowItems.getD 0 default)),
              titleItem := titleItemSpec cfg env st.titleItem }
        else
          { st with
              arrowItems :=
                st.arrowItems.set 0
                  (arrowItemSpec cfg (st.arrowItems.getD 0 default)) }).shadeItems
          = st.shadeItems := by
      split <;> rfl
    split
    · rw [vaFold_shadeItems_length, hshades2]
    · rw [vaFold_shadeItems_length, hshades2]

/-- A label left visible by the loop body outside interval mode fits above the
running threshold: its bottom edge `pos.y + boundingRect.height` does not
cross `height`. -/
theorem labelItemSpec_visible_bound (cfg : AxisConfig) (env : TextServices) (avail t : ℚ)
    (i : ℕ) (old : TextItem) (hint : cfg.intervalAxis = false)
    (hv : (labelItemSpec cfg env avail t i old).visible = true) :
    (labelItemSpec cfg env avail t i old).posY + (labelBRect cfg env avail i).h ≤ t := by
  simp only [labelItemSpec, hint, Bool.false_and, Bool.and_false, Bool.false_or,
    Bool.not_false, Bool.and_true, Bool.not_eq_true', Bool.or_eq_false_iff,
    decide_eq_false_iff_not, Bool.if_false_left, Bool.false_eq_true, if_false] at hv ⊢
  obtain ⟨hfirst, _⟩ := hv
  linarith [hfirst]

/-- The threshold after tick `j` equals the position of the last visible
label `i < j` when every label strictly between stayed hidden. -/
theorem threshold_stable (cfg : AxisConfig) (env : TextServices) (avail : ℚ) (i j : ℕ)
    (hij : i < j)
    (hvis : (labelItemSpec cfg env avail (thresholdSeq cfg env avail i) i default).visible
        = true)
    (hmid : ∀ k, i < k → k < j →
      (labelItemSpec cfg env avail (thresholdSeq cfg env avail k) k default).visible = false) :
    thresholdSeq cfg env avail j =
      (labelItemSpec cfg env avail (thresholdSeq cfg env avail i) i default).posY := by
  induction j with
  | zero => omega
  | succ j ih =>
    rcases eq_or_ne j i with rfl | hne
    · show (if (labelItemSpec cfg env avail (thresholdSeq cfg env avail j) j default).visible
          then (labelItemSpec cfg env avail (thresholdSeq cfg env avail j) j default).posY
          else thresholdSeq cfg env avail j) = _
      rw [if_pos hvis]
    · have hji : i < j := by omega
      have hstep : (labelItemSpec cfg env avail (thresholdSeq cfg env avail j) j
          default).visible = false := hmid j hji (by omega)
      show (if (labelItemSpec cfg env avail (thresholdSeq cfg env avail j) j default).visible
          then (labelItemSpec cfg env avail (thresholdSeq cfg env avail j) j default).posY
          else thresholdSeq cfg env avail j) = _
      rw [hstep]
      simp only [Bool.false_eq_true, if_false]
      exact ih hji (fun k hk1 hk2 => hmid k hk1 (by omega))

theorem updateGeometry_nil (cfg : AxisConfig) (env : TextServices) (st : AxisState)
    (h : cfg.layout = []) : updateGeometry cfg env st = st := by
  simp [updateGeometry, h]

/-! ## Claim C9 -/

/-- C9: with an empty tick layout `updateGeometry` returns immediately;
no render item's geometry, text or visibility is mutated. -/
theorem C9_thm (cfg : AxisConfig) (env : TextServices) (st : AxisState)
    (h : cfg.layout = []) : updateGeometry cfg env st = st :=
  updateGeometry_nil cfg env st h

/-- C9 witness: the empty-layout configuration leaves a non-trivial item state
untouched. -/
theorem C9_witness :
    cfgEmpty.layout = [] ∧ updateGeometry cfgEmpty envPlain stEmpty = stEmpty :=
  ⟨rfl, C9_thm cfgEmpty envPlain stEmpty rfl⟩

/-! ## Claim C6 -/

/-- C6 (amended): outside interval mode, for any two visible labels `i < j` in
tick order with every label between them hidden, the later label's span lies
entirely above the earlier one: `label[j].bottom <= label[i].top` (the running
threshold starts at `axisRect.bottom()` and is updated to each visible label's
top position, so ticks are consumed bottom-to-top) — not
`label[i].bottom <= label[j].top` as the claim stated. -/
theorem C6_amended_thm (cfg : AxisConfig) (env : TextServices) (st : AxisState) (i j : ℕ)
    (hint : cfg.intervalAxis = false)
    (hij : i < j) (hj : j < cfg.layout.length) (hjl : j < st.labelItems.length)
    (hvi : ((updateGeometry cfg env st).labelItems.getD i default).visible = true)
    (hvj : ((updateGeometry cfg env st).labelItems.getD j default).visible = true)
    (hmid : ∀ k, i < k → k < j →
      ((updateGeometry cfg env st).labelItems.getD k default).visible = false) :
    ((updateGeometry cfg env st).labelItems.getD j default).posY +
        (labelBRect cfg env (availSpace cfg env st) j).h ≤
      ((updateGeometry cfg env st).labelItems.getD i default).posY := by
  have hne : cfg.layout ≠ [] := by
    intro h
    rw [h] at hj
    simp at hj
  set avail := availSpace cfg env st with havail
  have hitem : ∀ m, m < cfg.layout.length → m < st.labelItems.length →
      (updateGeometry cfg env st).labelItems.getD m default =
        labelItemSpec cfg env avail (thresholdSeq cfg env avail m) m
          (st.labelItems.getD m default) := by
    intro m hm hml
    rw [getD_of_getElem?, updateGeometry_labels cfg env st hne m hml, if_pos hm]
    rfl
  have hil : i < st.labelItems.length := by omega
  have hvi' : (labelItemSpec cfg env avail (thresholdSeq cfg env avail i) i
      default).visible = true := by
    rw [← labelItemSpec_visible_indep cfg env avail _ i (st.labelItems.getD i default),
      ← hitem i (by omega) hil]
    exact hvi
  have hmid' : ∀ k, i < k → k < j →
      (labelItemSpec cfg env avail (thresholdSeq cfg env avail k) k default).visible
        = false := by
    intro k hk1 hk2
    rw [← labelItemSpec_visible_indep cfg env avail _ k (st.labelItems.getD k default),
      ← hitem k (by omega) (by omega)]
    exact hmid k hk1 hk2
  have hT : thresholdSeq cfg env avail j =
      (labelItemSpec cfg env avail (thresholdSeq cfg env avail i) i default).posY :=
    threshold_stable cfg env avail i j hij hvi' hmid'
  have hjv : (labelItemSpec cfg env avail (thresholdSeq cfg env avail j) j
      (st.labelItems.getD j default)).visible = true := by
    rw [← hitem j hj hjl]
    exact hvj
  have hbound := labelItemSpec_visible_bound cfg env avail (thresholdSeq cfg env avail j) j
    (st.labelItems.getD j default) hint hjv
  rw [hitem j hj hjl, hitem i (by omega) hil]
  rw [labelItemSpec_posY_indep cfg env avail _ i (st.labelItems.getD i default), ← hT]
  exact hbound

/-! ## Claim C7 -/

/-- C7 (amended): each shade band the pass touches is visible iff its
rectangle height is strictly positive; when the pixel layout decreases
monotonically inside the grid bounds (ticks laid out bottom-to-top, the
ordinary orientation for a vertical axis), band `q` spans the grid's full
width between ticks `2q+1` and `2q+2` and exactly `(n-1)/2` bands are
visible — a monotonically increasing pixel layout instead gives every band a
non-positive height, hiding all of them. -/
theorem C7_amended_thm (cfg : AxisConfig) (env : TextServices) (st : AxisState)
    (hlen : st.shadeItems.length = (cfg.layout.length - 1) / 2) :
    (∀ q, q < (cfg.layout.length - 1) / 2 →
      ((updateGeometry cfg env st).shadeItems.getD q default).visible =
        decide (0 < ((updateGeometry cfg env st).shadeItems.getD q default).rect.h)) ∧
    ((∀ m, m + 1 < cfg.layout.length → cfg.layout.getD (m + 1) 0 < cfg.layout.getD m 0) →
      (∀ m, m < cfg.layout.length →
        cfg.gridRect.top ≤ cfg.layout.getD m 0 ∧
          cfg.layout.getD m 0 ≤ cfg.gridRect.bottom) →
      ((updateGeometry cfg env st).shadeItems.countP (fun s => s.visible) =
          (cfg.layout.length - 1) / 2 ∧
        ∀ q, q < (cfg.layout.length - 1) / 2 →
          (updateGeometry cfg env st).shadeItems.getD q default =
            { rect := ⟨cfg.gridRect.left, cfg.layout.getD (2 * q + 2) 0, cfg.gridRect.w,
                cfg.layout.getD (2 * q + 1) 0 - cfg.layout.getD (2 * q + 2) 0⟩,
              visible := true })) := by
  rcases eq_or_ne cfg.layout [] with hnil | hne
  · have h0 : (cfg.layout.length - 1) / 2 = 0 := by rw [hnil]; rfl
    have hsh : st.shadeItems = [] := by
      apply List.length_eq_zero.mp
      rw [hlen, h0]
    refine ⟨?_, ?_⟩
    · intro q hq
      rw [h0] at hq
      omega
    · intro _ _
      rw [updateGeometry_nil cfg env st hnil, hsh, h0]
      refine ⟨rfl, ?_⟩
      intro q hq
      omega
  · have hgetD : ∀ q, q < (cfg.layout.length - 1) / 2 →
        (updateGeometry cfg env st).shadeItems.getD q default =
          shadeItemSpec cfg (2 * q + 2) := by
      intro q hq
      rw [getD_of_getElem?,
        updateGeometry_shades cfg env st hne q (by omega) (by omega)]
      rfl
    refine ⟨?_, ?_⟩
    · intro q hq
      rw [hgetD q hq]
      rfl
    · intro hmono hbounds
      have hspec : ∀ q, q < (cfg.layout.length - 1) / 2 →
          shadeItemSpec cfg (2 * q + 2) =
            { rect := ⟨cfg.gridRect.left, cfg.layout.getD (2 * q + 2) 0, cfg.gridRect.w,
                cfg.layout.getD (2 * q + 1) 0 - cfg.layout.getD (2 * q + 2) 0⟩,
              visible := true } := by
        intro q hq
        have hb1 := hbounds (2 * q + 1) (by omega)
        have hb2 := hbounds (2 * q + 2) (by omega)
        have hmq := hmono (2 * q + 1) (by omega)
        simp only [shadeItemSpec]
        have hlow : min (cfg.layout.getD (2 * q + 2 - 1) 0) cfg.gridRect.bottom =
            cfg.layout.getD (2 * q + 1) 0 := by
          have he : 2 * q + 2 - 1 = 2 * q + 1 := by omega
          rw [he]
          exact min_eq_left hb1.2
        have hup : max (cfg.layout.getD (2 * q + 2) 0) cfg.gridRect.top =
            cfg.layout.getD (2 * q + 2) 0 :=
          max_eq_left hb2.1
        rw [hlow, hup]
        have hvis : decide (0 < cfg.layout.getD (2 * q + 1) 0 -
            cfg.layout.getD (2 * q + 2) 0) = true := by
          rw [decide_eq_true_eq]
          linarith [hmq]
        rw [hvis]
      have hql : (updateGeometry cfg env st).shadeItems.length =
          (cfg.layout.length - 1) / 2 := by
        rw [updateGeometry_shadeItems_length, hlen]
      refine ⟨?_, ?_⟩
      · rw [← hql]
        apply List.countP_eq_length.mpr
        intro a ha
        obtain ⟨idx, hidx, hval⟩ := List.getElem_of_mem ha
        have hidx2 : idx < (cfg.layout.length - 1) / 2 := by
          rw [hql] at hidx
          exact hidx
        have : a = (updateGeometry cfg env st).shadeItems.getD idx default := by
          rw [List.getD_eq_getElem _ _ hidx, hval]
        rw [this, hgetD idx hidx2, hspec idx hidx2]
      · intro q hq
        rw [hgetD q hq, hspec q hq]

/-! ## Concrete evaluations of updateGeometry -/

/-- C5: the code evaluated at the failing input.  In interval mode with
layout [12, 5] in grid y in [0, 10] and a label box of height 6, the clamped
span (delta = 5) is narrower than the label box and touches the grid bottom,
yet the label is NOT force-hidden: it stays visible and is repositioned to the
clamped midpoint (10 - 5/2 - 3 = 9/2), because the hide condition at
verticalaxis.cpp:141-143 ends in `&& !intervalAxis()` inside a block guarded
by `intervalAxis()` and can never fire. -/
theorem C5_code_behavior :
    (min (cfgIv.layout.getD 0 0) cfgIv.gridRect.bottom -
        max (cfgIv.layout.getD 1 0) cfgIv.gridRect.top <
      (labelBRect cfgIv envIv (availSpace cfgIv envIv stIv) 0).h) ∧
    (min (cfgIv.layout.getD 0 0) cfgIv.gridRect.bottom = cfgIv.gridRect.bottom) ∧
    ((updateGeometry cfgIv envIv stIv).labelItems.getD 0 default).visible = true ∧
    ((updateGeometry cfgIv envIv stIv).labelItems.getD 0 default).posY = 9 / 2 := by
  refine ⟨?_, ?_, ?_, ?_⟩ <;>
    norm_num [updateGeometry, availSpace, availSpace0, titleHtml, titleItemSpec, vaStep,
      labelItemSpec, labelTruncRes, labelText, labelBRect, labelIRect, gridItemSpec,
      tickItemSpec, shadeItemSpec, arrowItemSpec, thresholdSeq, Rect.left, Rect.right,
      Rect.top, Rect.bottom, Rect.centerX, Rect.centerY, cfgIv, envIv, stIv,
      List.range_succ, List.replicate, List.set, min_def, max_def,
      (show ¬("A" = "") from by decide), (show ¬("B" = "") from by decide)]

/-- C6 counterexample: with layout [50, 20] (ticks bottom-to-top) and 20x10
label boxes, both labels stay visible but label 0's bottom edge (55) lies far
below label 1's top edge (15): the claimed
`label[i].bottom <= label[j].top` fails for i = 0 < j = 1 even with one pixel
of tolerance. -/
theorem C6_counterexample :
    ((updateGeometry cfgOv envOv stOv).labelItems.getD 0 default).visible = true ∧
    ((updateGeometry cfgOv envOv stOv).labelItems.getD 1 default).visible = true ∧
    ¬ (((updateGeometry cfgOv envOv stOv).labelItems.getD 0 default).posY +
          (labelBRect cfgOv envOv (availSpace cfgOv envOv stOv) 0).h ≤
        ((updateGeometry cfgOv envOv stOv).labelItems.getD 1 default).posY + 1) := by
  refine ⟨?_, ?_, ?_⟩ <;>
    norm_num [updateGeometry, availSpace, availSpace0, titleHtml, titleItemSpec, vaStep,
      labelItemSpec, labelTruncRes, labelText, labelBRect, labelIRect, gridItemSpec,
      tickItemSpec, shadeItemSpec, arrowItemSpec, thresholdSeq, Rect.left, Rect.right,
      Rect.top, Rect.bottom, Rect.centerX, Rect.centerY, cfgOv, envOv, stOv,
      List.range_succ, List.replicate, List.set, min_def, max_def,
      (show ¬("A" = "") from by decide), (show ¬("B" = "") from by decide)]

/-- C6 witness: the amended claim at the two-tick configuration, with both
labels visible and no label between them. -/
theorem C6_witness :
    cfgOv.intervalAxis = false ∧ (0 : ℕ) < 1 ∧ 1 < cfgOv.layout.length ∧
    1 < stOv.labelItems.length ∧
    ((updateGeometry cfgOv envOv stOv).labelItems.getD 0 default).visible = true ∧
    ((updateGeometry cfgOv envOv stOv).labelItems.getD 1 default).visible = true ∧
    ((updateGeometry cfgOv envOv stOv).labelItems.getD 1 default).posY +
        (labelBRect cfgOv envOv (availSpace cfgOv envOv stOv) 1).h ≤
      ((updateGeometry cfgOv envOv stOv).labelItems.getD 0 default).posY := by
  have hv0 : ((updateGeometry cfgOv envOv stOv).labelItems.getD 0 default).visible = true := by
    norm_num [updateGeometry, availSpace, availSpace0, titleHtml, titleItemSpec, vaStep,
      labelItemSpec, labelTruncRes, labelText, labelBRect, labelIRect, gridItemSpec,
      tickItemSpec, shadeItemSpec, arrowItemSpec, thresholdSeq, Rect.left, Rect.right,
      Rect.top, Rect.bottom, Rect.centerX, Rect.centerY, cfgOv, envOv, stOv,
      List.range_succ, List.replicate, List.set, min_def, max_def,
      (show ¬("A" = "") from by decide), (show ¬("B" = "") from by decide)]
  have hv1 : ((updateGeometry cfgOv envOv stOv).labelItems.getD 1 default).visible = true := by
    norm_num [updateGeometry, availSpace, availSpace0, titleHtml, titleItemSpec, vaStep,
      labelItemSpec, labelTruncRes, labelText, labelBRect, labelIRect, gridItemSpec,
      tickItemSpec, shadeItemSpec, arrowItemSpec, thresholdSeq, Rect.left, Rect.right,
      Rect.top, Rect.bottom, Rect.centerX, Rect.centerY, cfgOv, envOv, stOv,
      List.range_succ, List.replicate, List.set, min_def, max_def,
      (show ¬("A" = "") from by decide), (show ¬("B" = "") from by decide)]
  refine ⟨rfl, by omega, by decide, by decide, hv0, hv1, ?_⟩
  exact C6_amended_thm cfgOv envOv stOv 0 1 rfl (by omega) (by decide) (by decide) hv0 hv1
    (fun k hk1 hk2 => absurd hk2 (by omega))

/-- C7 counterexample: with the monotonically increasing pixel layout
[1, 2, 3, 4] inside grid y in [0, 10] (n = 4 ticks), the single shade band has
height min(2,10) - max(3,0) = -1 and is hidden, so 0 bands are visible while
the claim requires floor((4-1)/2) = 1. -/
theorem C7_counterexample :
    ((updateGeometry cfgShUp envPlain stShUp).shadeItems.countP (fun s => s.visible)) = 0 ∧
    (cfgShUp.layout.length - 1) / 2 = 1 := by
  constructor
  · norm_num [updateGeometry, availSpace, availSpace0, titleHtml, titleItemSpec, vaStep,
      labelItemSpec, labelTruncRes, labelText, labelBRect, labelIRect, gridItemSpec,
      tickItemSpec, shadeItemSpec, arrowItemSpec, thresholdSeq, Rect.left, Rect.right,
      Rect.top, Rect.bottom, Rect.centerX, Rect.centerY, cfgShUp, envPlain, stShUp,
      List.range_succ, List.replicate, List.set, min_def, max_def, List.countP,
      List.countP.go]
  · rfl

/-- C7 witness: the amended claim at the five-tick decreasing layout
[8, 6, 4, 2, 1] with both hypotheses discharged. -/
theorem C7_witness :
    stShDn.shadeItems.length = (cfgShDn.layout.length - 1) / 2 ∧
    ((updateGeometry cfgShDn envPlain stShDn).shadeItems.countP (fun s => s.visible) =
        (cfgShDn.layout.length - 1) / 2 ∧
      ∀ q, q < (cfgShDn.layout.length - 1) / 2 →
        (updateGeometry cfgShDn envPlain stShDn).shadeItems.getD q default =
          { rect := ⟨cfgShDn.gridRect.left, cfgShDn.layout.getD (2 * q + 2) 0,
              cfgShDn.gridRect.w,
              cfgShDn.layout.getD (2 * q + 1) 0 - cfgShDn.layout.getD (2 * q + 2) 0⟩,
            visible := true }) := by
  refine ⟨by decide, (C7_amended_thm cfgShDn envPlain stShDn (by decide)).2 ?_ ?_⟩
  · intro m hm
    have hm4 : m < 4 := by
      have : m + 1 < 5 := by simpa [cfgShDn] using hm
      omega
    interval_cases m <;> norm_num [cfgShDn]
  · intro m hm
    have hm5 : m < 5 := by simpa [cfgShDn] using hm
    interval_cases m <;> norm_num [cfgShDn, Rect.top, Rect.bottom]

end QtCharts
